import Mathlib

/-!
A shallow embedding, in Lean 4, of the core pipeline of the zx64c compiler
(scanner, recursive-descent module of syntactic analysis, and type checker),
translated from the Python sources under zx64c/.  Mutable state
(the scanner's position bookkeeping, the token list held by the syntactic
analyzer, the EnvironmentStack of the type checker) is passed explicitly;
Python exceptions are modelled by Except-style results that also carry the
state as mutated up to the raise (Python exceptions do not roll back
mutations).  Uncaught Python-level exceptions (IndexError, KeyError,
TypeError, RuntimeError) are modelled by dedicated failure variants distinct
from the ordinary, catchable error classes.  Recursive traversals take an
explicit fuel argument so that every definition is structurally recursive and
computable by the kernel; the fuel variants of the failure types never arise
for adequately fueled runs and appear in no theorem conclusion below.
-/

/-- Position marker attached to tokens, errors and AST nodes
(zx64c/ast.py, class SourceContext). -/
structure SourceContext where
  line : Nat
  column : Nat
  deriving DecidableEq, Repr

/-- The closed set of types of the language (zx64c/types.py): Void, U8, I8,
NumberLiteral, Bool, TypeIdentifier(name) and Callable(return type,
parameter types). -/
inductive Ty where
  | void
  | u8
  | i8
  | numberLiteral
  | boolT
  | typeIdentifier (name : String)
  | callable (return_type : Ty) (parameter_types : List Ty)

/-- Structural equality of types, as implemented by the per-class
double-underscore eq methods of zx64c/types.py. -/
def Ty.beq : Ty → Ty → Bool
  | .void, .void => true
  | .u8, .u8 => true
  | .i8, .i8 => true
  | .numberLiteral, .numberLiteral => true
  | .boolT, .boolT => true
  | .typeIdentifier n, .typeIdentifier n' => n = n'
  | .callable r ps, .callable r' ps' => Ty.beq r r' && beqList ps ps'
  | _, _ => false
where
  beqList : List Ty → List Ty → Bool
  | [], [] => true
  | t :: ts, t' :: ts' => Ty.beq t t' && beqList ts ts'
  | _, _ => false

/-- The equality test used throughout the checker (Python == and != compare
types through the structural eq methods); its agreement with propositional
equality makes Ty decidably equal. -/
instance : DecidableEq Ty := fun a b =>
  have H : ∀ x y : Ty, Ty.beq x y = true ↔ x = y := by
    apply Ty.beq.induct
      (fun l l' => (Ty.beq.beqList l l' = true ↔ l = l'))
      (fun x y => (Ty.beq x y = true ↔ x = y))
    case case1 => simp [Ty.beq]
    case case2 => simp [Ty.beq]
    case case3 => simp [Ty.beq]
    case case4 => simp [Ty.beq]
    case case5 => simp [Ty.beq]
    case case6 => intro n n'; simp [Ty.beq]
    case case7 => intro r ps r' ps' ih1 ih2; simp [Ty.beq, ih1, ih2]
    case case8 =>
      intro t x h1 h2 h3 h4 h5 h6 h7
      cases t <;> cases x <;>
        first
          | exact (h1 rfl rfl).elim
          | exact (h2 rfl rfl).elim
          | exact (h3 rfl rfl).elim
          | exact (h4 rfl rfl).elim
          | exact (h5 rfl rfl).elim
          | exact (h6 _ _ rfl rfl).elim
          | exact (h7 _ _ _ _ rfl rfl).elim
          | exact ⟨fun h => (nomatch h), fun h => (nomatch h)⟩
    case case9 => simp [Ty.beq.beqList]
    case case10 => intro t ts t' ts' ih1 ih2; simp [Ty.beq.beqList, ih1, ih2]
    case case11 =>
      intro t x h1 h2
      cases t <;> cases x <;>
        first
          | exact (h1 rfl rfl).elim
          | exact (h2 _ _ _ _ rfl rfl).elim
          | exact ⟨fun h => (nomatch h), fun h => (nomatch h)⟩
  decidable_of_iff (Ty.beq a b = true) (H a b)

/-- The static is-numerical predicate of zx64c/types.py: true exactly on the
Numerical subclasses U8, I8 and NumberLiteral. -/
def Ty.is_numerical : Ty → Bool
  | .u8 => true
  | .i8 => true
  | .numberLiteral => true
  | _ => false

/-- A function parameter: name plus declared type (zx64c/ast.py, dataclass
Parameter). -/
structure Parameter where
  name : String
  type_id : Ty

/-- The AST node variants of zx64c/ast.py.  Every node carries the
SourceContext it was created with. -/
inductive Ast where
  | program (functions : List Ast) (context : SourceContext)
  | function (name : String) (parameters : List Parameter) (return_type : Ty)
      (code_block : Ast) (context : SourceContext)
  | block (statements : List Ast) (context : SourceContext)
  | ifNode (condition : Ast) (consequence : Ast) (context : SourceContext)
  | printNode (expression : Ast) (context : SourceContext)
  | letNode (name : String) (var_type : Ty) (rhs : Ast) (context : SourceContext)
  | assignment (name : String) (rhs : Ast) (context : SourceContext)
  | returnNode (expr : Ast) (context : SourceContext)
  | equal (lhs rhs : Ast) (context : SourceContext)
  | notEqual (lhs rhs : Ast) (context : SourceContext)
  | addition (lhs rhs : Ast) (context : SourceContext)
  | negation (expression : Ast) (context : SourceContext)
  | functionCall (function_name : String) (arguments : List Ast)
      (context : SourceContext)
  | identifier (value : String) (context : SourceContext)
  | unsignedint (value : Nat) (context : SourceContext)
  | boolLit (value : Bool) (context : SourceContext)

/-- The context property shared by all nodes (zx64c/ast.py, class Ast). -/
def Ast.context : Ast → SourceContext
  | .program _ c => c
  | .function _ _ _ _ c => c
  | .block _ c => c
  | .ifNode _ _ c => c
  | .printNode _ c => c
  | .letNode _ _ _ c => c
  | .assignment _ _ c => c
  | .returnNode _ c => c
  | .equal _ _ c => c
  | .notEqual _ _ c => c
  | .addition _ _ c => c
  | .negation _ c => c
  | .functionCall _ _ c => c
  | .identifier _ c => c
  | .unsignedint _ c => c
  | .boolLit _ c => c

/-- The computed Callable type of a Function node (zx64c/ast.py,
Function.__init__ sets self.type to Callable(return_type, list of the
parameters' type ids)). -/
def Function.type (parameters : List Parameter) (return_type : Ty) : Ty :=
  .callable return_type (parameters.map (·.type_id))

/-- Token categories.  The first group is the enum of zx64c/scanner.py; the
second group lists the categories that zx64c/parser.py references
(TokenCategory.DEF, RETURN, ARROW, COMMA, VOID, I8, LEFT_BRACKET,
RIGHT_BRACKET) and that the repository's test suite scans: they belong to the
evolved token enum that this snapshot of scanner.py does not yet define, and
the scanner embedded here never produces them. -/
inductive TokenCategory where
  | eof
  | newline
  | indent
  | dedent
  | print
  | trueK
  | falseK
  | boolK
  | u8K
  | letK
  | ifK
  | colon
  | left_paren
  | right_paren
  | plus
  | minus
  | equal
  | assign
  | unsignedint
  | identifier
  | defK
  | returnK
  | arrow
  | comma
  | voidK
  | i8K
  | left_bracket
  | right_bracket
  deriving DecidableEq, Repr

/-- A token (zx64c/scanner.py, dataclass Token). -/
structure Token where
  line : Nat
  column : Nat
  category : TokenCategory
  lexeme : String
  deriving DecidableEq, Repr

/-- The keyword table KEYWORD_CATEGORIES of zx64c/scanner.py. -/
def KEYWORD_CATEGORIES : List (String × TokenCategory) :=
  [("print", .print), ("true", .trueK), ("false", .falseK), ("bool", .boolK),
   ("u8", .u8K), ("let", .letK), ("if", .ifK)]

/-- Failures a scan can end with.  unrecognizedToken and unevenIndent are the
two ScanError classes of zx64c/scanner.py; keyError models the uncaught
Python KeyError that KEYWORD_CATEGORIES[characters] raises in
Scanner._consume_keyword when the maximal identifier run is not a keyword;
fuel is the artifact of the explicit fuel of the embedding (never reached
when the fuel exceeds the source length). -/
inductive ScanFailure where
  | unrecognizedToken (line column : Nat) (leading_char : Char)
  | unevenIndent (line column space_count : Nat)
  | keyError (characters : String)
  | fuel
  deriving DecidableEq, Repr

/-- The mutable fields of class Scanner: the not-yet-consumed suffix of the
source (modelling _source plus _source_index), _line, _column, _indent_level
and _produced_tokens. -/
structure ScanState where
  remaining : List Char
  line : Nat
  column : Nat
  indent_level : Nat
  produced : List Token
  deriving DecidableEq, Repr

/-- Scanner._advance: consume one character, tracking line and column. -/
def Scanner.advance (st : ScanState) : ScanState :=
  match st.remaining with
  | [] => st
  | c :: rest =>
    if c = '\n' then
      { st with remaining := rest, line := st.line + 1, column := 1 }
    else
      { st with remaining := rest, column := st.column + 1 }

/-- Scanner._advance_many. -/
def Scanner.advance_many : Nat → ScanState → ScanState
  | 0, st => st
  | k + 1, st => Scanner.advance_many k (Scanner.advance st)

/-- The free function _is_identifier_leading_character of zx64c/scanner.py:
ASCII letter or underscore. -/
def is_identifier_leading_character (c : Char) : Bool :=
  c.isAlpha || c = '_'

/-- The free function _is_identifier_character: letter, underscore or
digit. -/
def is_identifier_character (c : Char) : Bool :=
  is_identifier_leading_character c || c.isDigit

/-- Scanner._is_keyword_next: does the remaining source merely START with
one of the keyword strings (a plain prefix test, with no check that the
identifier run ends where the keyword does). -/
def Scanner.is_keyword_next (remaining : List Char) : Bool :=
  KEYWORD_CATEGORIES.any (fun kw => kw.1.data.isPrefixOf remaining)

/-- Scanner._count_indentations: length of the leading space run of the
remaining source; zero is fine, a positive count must be a multiple of four
(otherwise UnevenIndentError), and the level is the count divided by 4. -/
def Scanner.count_indentations (st : ScanState) : Except ScanFailure Nat :=
  let space_count := (st.remaining.takeWhile (fun c => c = ' ')).length
  if space_count = 0 then .ok 0
  else if space_count % 4 ≠ 0 then
    .error (.unevenIndent st.line st.column space_count)
  else .ok (space_count / 4)

/-- Scanner._consume_possible_indentations, with the token appends of the
caller folded in: skip entirely when the rest of the line is blank (first
non-space character is a newline); otherwise count the indentation, emit
INDENT tokens when the level rose and DEDENT tokens when it fell (all at the
current position), advance over the counted spaces and record the new
level. -/
def Scanner.consume_possible_indentations (st : ScanState) :
    Except ScanFailure ScanState :=
  match st.remaining.dropWhile (fun c => c = ' ') with
  | '\n' :: _ => .ok st
  | _ =>
    match Scanner.count_indentations st with
    | .error e => .error e
    | .ok new_indent_level =>
      let indents :=
        if st.indent_level < new_indent_level then
          List.replicate (new_indent_level - st.indent_level)
            (Token.mk st.line st.column .indent "    ")
        else
          List.replicate (st.indent_level - new_indent_level)
            (Token.mk st.line st.column .dedent "    ")
      let st' := Scanner.advance_many (new_indent_level * 4) st
      .ok { st' with
              indent_level := new_indent_level,
              produced := st.produced ++ indents }

/-- Scanner._consume_one_character_symbol. -/
def Scanner.consume_one_character_symbol (lexeme : String)
    (category : TokenCategory) (st : ScanState) : ScanState :=
  { Scanner.advance st with
      produced := st.produced ++ [Token.mk st.line st.column category lexeme] }

/-- Scanner._consume_two_character_symbol. -/
def Scanner.consume_two_character_symbol (lexeme : String)
    (category : TokenCategory) (st : ScanState) : ScanState :=
  { Scanner.advance (Scanner.advance st) with
      produced := st.produced ++ [Token.mk st.line st.column category lexeme] }

/-- Scanner._consume_multi_character_symbol: take the maximal run satisfying
the predicate, emit one token for it, and move the index and column by its
length (without the per-character _advance). -/
def Scanner.consume_multi_character_symbol (character_predicate : Char → Bool)
    (resulting_category : TokenCategory) (st : ScanState) : ScanState :=
  let characters := st.remaining.takeWhile character_predicate
  { st with
      remaining := st.remaining.drop characters.length,
      column := st.column + characters.length,
      produced := st.produced ++
        [Token.mk st.line st.column resulting_category
          (String.mk characters)] }

/-- Scanner._consume_keyword: take the maximal identifier run and look it up
in KEYWORD_CATEGORIES; a run that is not exactly a keyword makes the lookup
raise KeyError (modelled by the keyError failure). -/
def Scanner.consume_keyword (character_predicate : Char → Bool)
    (st : ScanState) : Except ScanFailure ScanState :=
  let characters := String.mk (st.remaining.takeWhile character_predicate)
  match List.lookup characters KEYWORD_CATEGORIES with
  | none => .error (.keyError characters)
  | some category =>
    .ok { st with
            remaining := st.remaining.drop characters.length,
            column := st.column + characters.length,
            produced := st.produced ++
              [Token.mk st.line st.column category characters] }

/-- One iteration of the dispatch loop in Scanner.scan, in the source's
branch order (space, newline, parens, plus, minus, double equal before
single equal, colon, digit run, keyword, identifier, otherwise
UnrecognizedTokenError). -/
def Scanner.scan_step (st : ScanState) : Except ScanFailure ScanState :=
  match st.remaining with
  | [] => .ok st
  | ' ' :: _ => .ok (Scanner.advance st)
  | '\n' :: _ =>
    Scanner.consume_possible_indentations
      (Scanner.consume_one_character_symbol "\n" .newline st)
  | '(' :: _ => .ok (Scanner.consume_one_character_symbol "(" .left_paren st)
  | ')' :: _ => .ok (Scanner.consume_one_character_symbol ")" .right_paren st)
  | '+' :: _ => .ok (Scanner.consume_one_character_symbol "+" .plus st)
  | '-' :: _ => .ok (Scanner.consume_one_character_symbol "-" .minus st)
  | '=' :: '=' :: _ =>
    .ok (Scanner.consume_two_character_symbol "==" .equal st)
  | '=' :: _ => .ok (Scanner.consume_one_character_symbol "=" .assign st)
  | ':' :: _ => .ok (Scanner.consume_one_character_symbol ":" .colon st)
  | c :: _ =>
    if c.isDigit then
      .ok (Scanner.consume_multi_character_symbol Char.isDigit .unsignedint st)
    else if Scanner.is_keyword_next st.remaining then
      Scanner.consume_keyword is_identifier_character st
    else if is_identifier_leading_character c then
      .ok (Scanner.consume_multi_character_symbol is_identifier_character
        .identifier st)
    else
      .error (.unrecognizedToken st.line st.column c)

/-- The while loop of Scanner.scan: repeat scan_step until the source is
exhausted.  Every step consumes at least one character, so any fuel above
the source length suffices. -/
def Scanner.scan_loop : Nat → ScanState → Except ScanFailure ScanState
  | 0, st =>
    match st.remaining with
    | [] => .ok st
    | _ => .error .fuel
  | n + 1, st =>
    match st.remaining with
    | [] => .ok st
    | _ =>
      match Scanner.scan_step st with
      | .error e => .error e
      | .ok st' => Scanner.scan_loop n st'

/-- Scanner._remove_extra_newlines: pair each token with its cyclic
successor and drop a NEWLINE whose successor is also a NEWLINE. -/
def Scanner.remove_extra_newlines (tokens : List Token) : List Token :=
  ((tokens.zip (tokens.drop 1 ++ tokens.take 1)).filter
      (fun tn => !(tn.1.category = TokenCategory.newline &&
                   tn.2.category = TokenCategory.newline))).map (·.1)

/-- Scanner.scan: run the loop from the initial state (line 1, column 1,
indentation level 0), append the EOF token at the final position, and filter
consecutive NEWLINEs. -/
def Scanner.scan (source : String) : Except ScanFailure (List Token) :=
  match Scanner.scan_loop (source.length + 1)
      (ScanState.mk source.data 1 1 0 []) with
  | .error e => .error e
  | .ok st =>
    .ok (Scanner.remove_extra_newlines
      (st.produced ++ [Token.mk st.line st.column .eof ""]))

/-- Failures of the syntactic analysis (zx64c/parser.py).  unexpectedToken
is the UnexpectedTokenError class; exc models an uncaught Python-level
exception (IndexError from reading tokens[0] of an empty list, TypeError
from the _parse_function_type(self) call with a superfluous argument,
KeyError from the to_type lookup, ValueError from int()); fuel is the
artifact of the embedding's explicit fuel. -/
inductive ParseFailure where
  | unexpectedToken (expected_tokens : List TokenCategory)
      (encountered_token : TokenCategory) (context : SourceContext)
  | exc (name : String)
  | fuel
  deriving DecidableEq, Repr

/-- Parser._current_token: tokens[0], an IndexError when the list is
empty. -/
def Parser.current_token : List Token → Except ParseFailure Token
  | [] => .error (.exc "IndexError")
  | t :: _ => .ok t

/-- Parser._make_context: the position of the current token. -/
def Parser.make_context (tokens : List Token) :
    Except ParseFailure SourceContext :=
  match Parser.current_token tokens with
  | .error e => .error e
  | .ok t => .ok (SourceContext.mk t.line t.column)

/-- Parser._consume: fail with UnexpectedTokenError if the current token's
category differs, otherwise return the token and drop it. -/
def Parser.consume (category : TokenCategory) (tokens : List Token) :
    Except ParseFailure (Token × List Token) :=
  match tokens with
  | [] => .error (.exc "IndexError")
  | t :: rest =>
    if t.category = category then .ok (t, rest)
    else
      .error (.unexpectedToken [category] t.category
        (SourceContext.mk t.line t.column))

/-- The to_type table of Parser._parse_type, keyed by the token's lexeme. -/
def Parser.to_type : List (String × Ty) :=
  [("bool", .boolT), ("i8", .i8), ("u8", .u8), ("void", .void)]

/-- Parser._parse_type.  The branch for the built-in type categories looks
the LEXEME up in to_type (an uncaught KeyError when absent); the branch for
IDENTIFIER followed by LEFT_BRACKET calls self._parse_function_type(self),
which raises TypeError at the call site because _parse_function_type takes
no positional argument, so the function-type grammar is dead code; a lone
IDENTIFIER becomes a TypeIdentifier. -/
def Parser.parse_type (tokens : List Token) :
    Except ParseFailure (Ty × List Token) :=
  match Parser.make_context tokens with
  | .error e => .error e
  | .ok context =>
    match Parser.current_token tokens with
    | .error e => .error e
    | .ok t =>
      if t.category ∈ [TokenCategory.voidK, TokenCategory.boolK,
          TokenCategory.i8K, TokenCategory.u8K] then
        match List.lookup t.lexeme Parser.to_type with
        | none => .error (.exc "KeyError")
        | some ty => .ok (ty, tokens.drop 1)
      else if (match tokens with
               | t0 :: t1 :: _ =>
                 t0.category = TokenCategory.identifier &&
                   t1.category = TokenCategory.left_bracket
               | _ => false) then
        .error (.exc "TypeError")
      else if t.category = TokenCategory.identifier then
        .ok (.typeIdentifier t.lexeme, tokens.drop 1)
      else
        .error (.unexpectedToken [TokenCategory.identifier] t.category context)

/-- Parser._parse_parameter: IDENTIFIER COLON type. -/
def Parser.parse_parameter (tokens : List Token) :
    Except ParseFailure (Parameter × List Token) := do
  let (id_token, r1) ← Parser.consume .identifier tokens
  let (_, r2) ← Parser.consume .colon r1
  let (type_id, r3) ← Parser.parse_type r2
  pure (Parameter.mk id_token.lexeme type_id, r3)

mutual

/-- Parser._parse_program: capture the context of the first token, skip one
optional leading NEWLINE, then parse functions until EOF. -/
def Parser.parse_program : Nat → List Token → Except ParseFailure (Ast × List Token)
  | 0, _ => .error .fuel
  | n + 1, tokens => do
    let context ← Parser.make_context tokens
    let t ← Parser.current_token tokens
    let tokens1 := if t.category = TokenCategory.newline then tokens.drop 1 else tokens
    let (functions, rest) ← Parser.parse_program_loop n tokens1
    pure (.program functions context, rest)

/-- The while loop of _parse_program. -/
def Parser.parse_program_loop : Nat → List Token → Except ParseFailure (List Ast × List Token)
  | 0, _ => .error .fuel
  | n + 1, tokens => do
    let t ← Parser.current_token tokens
    if t.category = TokenCategory.eof then pure ([], tokens)
    else do
      let (f, r1) ← Parser.parse_function n tokens
      let (fs, r2) ← Parser.parse_program_loop n r1
      pure (f :: fs, r2)

/-- Parser._parse_function. -/
def Parser.parse_function : Nat → List Token → Except ParseFailure (Ast × List Token)
  | 0, _ => .error .fuel
  | n + 1, tokens => do
    let context ← Parser.make_context tokens
    let (_, r1) ← Parser.consume .defK tokens
    let (id_token, r2) ← Parser.consume .identifier r1
    let (_, r3) ← Parser.consume .left_paren r2
    let (parameters, r4) ← Parser.parse_parameters n r3
    let (_, r5) ← Parser.consume .right_paren r4
    let (_, r6) ← Parser.consume .arrow r5
    let (return_type_id, r7) ← Parser.parse_type r6
    let (_, r8) ← Parser.consume .colon r7
    let (_, r9) ← Parser.consume .newline r8
    let (code_block, r10) ← Parser.parse_block n r9
    pure (.function id_token.lexeme parameters return_type_id code_block context, r10)

/-- Parser._parse_parameters: empty on an immediate RIGHT_PAREN, else one
parameter then COMMA-separated more. -/
def Parser.parse_parameters : Nat → List Token → Except ParseFailure (List Parameter × List Token)
  | 0, _ => .error .fuel
  | n + 1, tokens => do
    let t ← Parser.current_token tokens
    if t.category = TokenCategory.right_paren then pure ([], tokens)
    else do
      let (p, r1) ← Parser.parse_parameter tokens
      let (ps, r2) ← Parser.parse_parameters_loop n r1
      pure (p :: ps, r2)

/-- The while loop of _parse_parameters. -/
def Parser.parse_parameters_loop : Nat → List Token → Except ParseFailure (List Parameter × List Token)
  | 0, _ => .error .fuel
  | n + 1, tokens => do
    let t ← Parser.current_token tokens
    if t.category = TokenCategory.comma then do
      let (p, r1) ← Parser.parse_parameter (tokens.drop 1)
      let (ps, r2) ← Parser.parse_parameters_loop n r1
      pure (p :: ps, r2)
    else pure ([], tokens)

/-- Parser._parse_statement: compound for IF, simple otherwise. -/
def Parser.parse_statement : Nat → List Token → Except ParseFailure (Ast × List Token)
  | 0, _ => .error .fuel
  | n + 1, tokens => do
    let t ← Parser.current_token tokens
    if t.category ∈ [TokenCategory.ifK] then
      Parser.parse_compound_statement n tokens
    else
      Parser.parse_simple_statement n tokens

/-- Parser._parse_simple_statement: dispatch on the first one or two token
categories (PRINT, LET, IDENTIFIER ASSIGN, RETURN, else expression), each
followed by a consumed NEWLINE. -/
def Parser.parse_simple_statement : Nat → List Token → Except ParseFailure (Ast × List Token)
  | 0, _ => .error .fuel
  | n + 1, tokens => do
    let t ← Parser.current_token tokens
    if t.category = TokenCategory.print then do
      let (s, r1) ← Parser.parse_print n tokens
      let (_, r2) ← Parser.consume .newline r1
      pure (s, r2)
    else if t.category = TokenCategory.letK then do
      let (s, r1) ← Parser.parse_let n tokens
      let (_, r2) ← Parser.consume .newline r1
      pure (s, r2)
    else if (match tokens with
             | t0 :: t1 :: _ =>
               t0.category = TokenCategory.identifier &&
                 t1.category = TokenCategory.assign
             | _ => false) then do
      let (s, r1) ← Parser.parse_assignment n tokens
      let (_, r2) ← Parser.consume .newline r1
      pure (s, r2)
    else if t.category = TokenCategory.returnK then do
      let (s, r1) ← Parser.parse_return n tokens
      let (_, r2) ← Parser.consume .newline r1
      pure (s, r2)
    else do
      let (s, r1) ← Parser.parse_expression n tokens
      let (_, r2) ← Parser.consume .newline r1
      pure (s, r2)

/-- Parser._parse_compound_statement. -/
def Parser.parse_compound_statement : Nat → List Token → Except ParseFailure (Ast × List Token)
  | 0, _ => .error .fuel
  | n + 1, tokens => Parser.parse_if n tokens

/-- Parser._parse_if. -/
def Parser.parse_if : Nat → List Token → Except ParseFailure (Ast × List Token)
  | 0, _ => .error .fuel
  | n + 1, tokens => do
    let context ← Parser.make_context tokens
    let (_, r1) ← Parser.consume .ifK tokens
    let (condition, r2) ← Parser.parse_expression n r1
    let (_, r3) ← Parser.consume .colon r2
    let (_, r4) ← Parser.consume .newline r3
    let (consequence, r5) ← Parser.parse_block n r4
    pure (.ifNode condition consequence context, r5)

/-- Parser._parse_block: INDENT statement* DEDENT, context at the INDENT. -/
def Parser.parse_block : Nat → List Token → Except ParseFailure (Ast × List Token)
  | 0, _ => .error .fuel
  | n + 1, tokens => do
    let context ← Parser.make_context tokens
    let (_, r1) ← Parser.consume .indent tokens
    let (statements, r2) ← Parser.parse_block_loop n r1
    let (_, r3) ← Parser.consume .dedent r2
    pure (.block statements context, r3)

/-- The while loop of _parse_block. -/
def Parser.parse_block_loop : Nat → List Token → Except ParseFailure (List Ast × List Token)
  | 0, _ => .error .fuel
  | n + 1, tokens => do
    let t ← Parser.current_token tokens
    if t.category = TokenCategory.dedent then pure ([], tokens)
    else do
      let (s, r1) ← Parser.parse_statement n tokens
      let (ss, r2) ← Parser.parse_block_loop n r1
      pure (s :: ss, r2)

/-- Parser._parse_print. -/
def Parser.parse_print : Nat → List Token → Except ParseFailure (Ast × List Token)
  | 0, _ => .error .fuel
  | n + 1, tokens => do
    let context ← Parser.make_context tokens
    let (_, r1) ← Parser.consume .print tokens
    let (_, r2) ← Parser.consume .left_paren r1
    let (expression, r3) ← Parser.parse_expression n r2
    let (_, r4) ← Parser.consume .right_paren r3
    pure (.printNode expression context, r4)

/-- Parser._parse_let. -/
def Parser.parse_let : Nat → List Token → Except ParseFailure (Ast × List Token)
  | 0, _ => .error .fuel
  | n + 1, tokens => do
    let context ← Parser.make_context tokens
    let (_, r1) ← Parser.consume .letK tokens
    let (name_token, r2) ← Parser.consume .identifier r1
    let (_, r3) ← Parser.consume .colon r2
    let (type_name, r4) ← Parser.parse_type r3
    let (_, r5) ← Parser.consume .assign r4
    let (expression, r6) ← Parser.parse_expression n r5
    pure (.letNode name_token.lexeme type_name expression context, r6)

/-- Parser._parse_assignment. -/
def Parser.parse_assignment : Nat → List Token → Except ParseFailure (Ast × List Token)
  | 0, _ => .error .fuel
  | n + 1, tokens => do
    let context ← Parser.make_context tokens
    let (name_token, r1) ← Parser.consume .identifier tokens
    let (_, r2) ← Parser.consume .assign r1
    let (expression, r3) ← Parser.parse_expression n r2
    pure (.assignment name_token.lexeme expression context, r3)

/-- Parser._parse_return. -/
def Parser.parse_return : Nat → List Token → Except ParseFailure (Ast × List Token)
  | 0, _ => .error .fuel
  | n + 1, tokens => do
    let context ← Parser.make_context tokens
    let (_, r1) ← Parser.consume .returnK tokens
    let (expression, r2) ← Parser.parse_expression n r1
    pure (.returnNode expression context, r2)

/-- Parser._parse_expression: parse a term; when a PLUS follows, capture the
context AT THE PLUS TOKEN (after the left operand has already been
consumed), drop the PLUS and right-recurse, building an Addition node. -/
def Parser.parse_expression : Nat → List Token → Except ParseFailure (Ast × List Token)
  | 0, _ => .error .fuel
  | n + 1, tokens => do
    let (lhs, r1) ← Parser.parse_term n tokens
    let t ← Parser.current_token r1
    if t.category = TokenCategory.plus then do
      let context := SourceContext.mk t.line t.column
      let (rhs, r2) ← Parser.parse_expression n (r1.drop 1)
      pure (.addition lhs rhs context, r2)
    else pure (lhs, r1)

/-- Parser._parse_term. -/
def Parser.parse_term : Nat → List Token → Except ParseFailure (Ast × List Token)
  | 0, _ => .error .fuel
  | n + 1, tokens => Parser.parse_factor n tokens

/-- Parser._parse_factor: unary PLUS is discarded, unary MINUS builds a
Negation with the MINUS token's context, parentheses return the inner
expression, otherwise an atom. -/
def Parser.parse_factor : Nat → List Token → Except ParseFailure (Ast × List Token)
  | 0, _ => .error .fuel
  | n + 1, tokens => do
    let t ← Parser.current_token tokens
    if t.category = TokenCategory.plus then
      Parser.parse_factor n (tokens.drop 1)
    else if t.category = TokenCategory.minus then do
      let context := SourceContext.mk t.line t.column
      let (factor, r1) ← Parser.parse_factor n (tokens.drop 1)
      pure (.negation factor context, r1)
    else if t.category = TokenCategory.left_paren then do
      let (expression, r1) ← Parser.parse_expression n (tokens.drop 1)
      let (_, r2) ← Parser.consume .right_paren r1
      pure (expression, r2)
    else
      Parser.parse_atom n tokens

/-- Python int(lexeme) on an UNSIGNEDINT lexeme: the decimal value when
every character is a digit and the string is nonempty, otherwise none
(int raises ValueError). Written structurally so closed parses evaluate. -/
def chars_to_nat : List Char → Nat → Option Nat
  | [], acc => some acc
  | c :: cs, acc =>
    if c.isDigit then chars_to_nat cs (acc * 10 + (c.toNat - 48))
    else none

def str_to_nat (s : String) : Option Nat :=
  match s.data with
  | [] => none
  | cs => chars_to_nat cs 0

/-- Parser._parse_atom: function call on IDENTIFIER LEFT_PAREN lookahead,
else integer, identifier or boolean literal, with the context captured
before any consumption. -/
def Parser.parse_atom : Nat → List Token → Except ParseFailure (Ast × List Token)
  | 0, _ => .error .fuel
  | n + 1, tokens => do
    let context ← Parser.make_context tokens
    if (match tokens with
        | t0 :: t1 :: _ =>
          t0.category = TokenCategory.identifier &&
            t1.category = TokenCategory.left_paren
        | _ => false) then
      Parser.parse_function_call n tokens
    else do
      let t ← Parser.current_token tokens
      if t.category = TokenCategory.unsignedint then
        match str_to_nat t.lexeme with
        | none => .error (.exc "ValueError")
        | some value => pure (.unsignedint value context, tokens.drop 1)
      else if t.category = TokenCategory.identifier then
        pure (.identifier t.lexeme context, tokens.drop 1)
      else if t.category ∈ [TokenCategory.trueK, TokenCategory.falseK] then
        pure (.boolLit (t.category = TokenCategory.trueK) context,
          tokens.drop 1)
      else
        .error (.unexpectedToken
          [TokenCategory.unsignedint, TokenCategory.trueK,
           TokenCategory.falseK, TokenCategory.identifier]
          t.category context)

/-- Parser._parse_function_call. -/
def Parser.parse_function_call : Nat → List Token → Except ParseFailure (Ast × List Token)
  | 0, _ => .error .fuel
  | n + 1, tokens => do
    let context ← Parser.make_context tokens
    let (name_token, r1) ← Parser.consume .identifier tokens
    let (_, r2) ← Parser.consume .left_paren r1
    let t ← Parser.current_token r2
    let (first_args, r3) ←
      if t.category ≠ TokenCategory.right_paren then do
        let (a, ra) ← Parser.parse_expression n r2
        pure ([a], ra)
      else pure ([], r2)
    let (more_args, r4) ← Parser.parse_call_args_loop n r3
    let (_, r5) ← Parser.consume .right_paren r4
    pure (.functionCall name_token.lexeme (first_args ++ more_args) context, r5)

/-- The while loop of _parse_function_call over COMMA-led arguments. -/
def Parser.parse_call_args_loop : Nat → List Token → Except ParseFailure (List Ast × List Token)
  | 0, _ => .error .fuel
  | n + 1, tokens => do
    let t ← Parser.current_token tokens
    if t.category ≠ TokenCategory.right_paren then do
      let (_, r1) ← Parser.consume .comma tokens
      let (a, r2) ← Parser.parse_expression n r1
      let (as_, r3) ← Parser.parse_call_args_loop n r2
      pure (a :: as_, r3)
    else pure ([], tokens)

end

/-- Parser.parse: run _parse_program on the whole token list.  The fuel is
an over-approximation of the recursion depth, generous enough for any token
list (at most a constant number of nested calls happen per token). -/
def Parser.parse (tokens : List Token) : Except ParseFailure Ast :=
  match Parser.parse_program (tokens.length * 8 + 16) tokens with
  | .error e => .error e
  | .ok (ast, _) => .ok ast

/-- Python-dict insertion preserving insertion order: overwrite in place when
the key exists, append otherwise. -/
def dict_insert : List (String × Ty) → String → Ty → List (String × Ty)
  | [], k, v => [(k, v)]
  | (k', v') :: rest, k, v =>
    if k' = k then (k, v) :: rest else (k', v') :: dict_insert rest k v

/-- One lexical scope (zx64c/typechecker/__init__.py, class Scope): a
variable-name-to-type dictionary and a type-name-to-type dictionary. -/
structure Scope where
  variable_types : List (String × Ty)
  defined_types : List (String × Ty)

/-- The empty Scope (Scope.__init__). -/
def Scope.empty : Scope := Scope.mk [] []

/-- Scope.add_type. -/
def Scope.add_type (s : Scope) (name : String) (type_ : Ty) : Scope :=
  { s with defined_types := dict_insert s.defined_types name type_ }

/-- Scope.add_variable (its context parameter is unused in the source). -/
def Scope.add_variable (s : Scope) (name : String) (var_type : Ty) : Scope :=
  { s with variable_types := dict_insert s.variable_types name var_type }

/-- Scope.has_type. -/
def Scope.has_type (s : Scope) (name : String) : Bool :=
  (List.lookup name s.defined_types).isSome

/-- Scope.has_variable. -/
def Scope.has_variable (s : Scope) (name : String) : Bool :=
  (List.lookup name s.variable_types).isSome

/-- Scope.resolve_type; the Python KeyError on a missing name is modelled by
none (the caller catches it and moves outward). -/
def Scope.resolve_type (s : Scope) (type_name : String) : Option Ty :=
  List.lookup type_name s.defined_types

/-- Scope.get_variable_type; the UndefinedVariableError it raises on a
missing name is modelled by none (EnvironmentStack catches it and moves
outward, re-raising only at the end). -/
def Scope.get_variable_type (s : Scope) (name : String) : Option Ty :=
  List.lookup name s.variable_types

/-- The stack of open scopes (class EnvironmentStack).  The Python list has
the innermost scope LAST (append and pop at the end); here the innermost
scope comes FIRST, so walking the list head to tail is the source's
reversed(self._scopes) order. -/
structure EnvironmentStack where
  scopes : List Scope

/-- EnvironmentStack.push_scope. -/
def EnvironmentStack.push_scope (env : EnvironmentStack) (scope : Scope) :
    EnvironmentStack :=
  EnvironmentStack.mk (scope :: env.scopes)

/-- EnvironmentStack.pop_scope (list.pop; popping an empty stack would be a
Python IndexError, which no checker path reaches since pops always follow
pushes). -/
def EnvironmentStack.pop_scope (env : EnvironmentStack) : EnvironmentStack :=
  EnvironmentStack.mk env.scopes.tail

/-- EnvironmentStack.has_type: does any open scope define the name. -/
def EnvironmentStack.has_type (env : EnvironmentStack) (name : String) : Bool :=
  env.scopes.any (fun s => s.has_type name)

/-- EnvironmentStack.resolve_type: the innermost scope that defines the
name; none models the RuntimeError raised when no scope does. -/
def EnvironmentStack.resolve_type (env : EnvironmentStack) (name : String) :
    Option Ty :=
  env.scopes.findSome? (fun s => s.resolve_type name)

/-- EnvironmentStack.has_variable: does ANY open scope (not merely the
innermost) bind the name. -/
def EnvironmentStack.has_variable (env : EnvironmentStack) (name : String) :
    Bool :=
  env.scopes.any (fun s => s.has_variable name)

/-- The nine concrete TypecheckError variants plus Combined.  The classes
TypeMismatchError, NoReturnError, AlreadyDefinedVariableError,
UndefinedTypeError, UndefinedVariableError and CombinedTypecheckError are in
zx64c/typechecker/errors.py; ExpectedNumericalTypeError, NotFunctionCall,
TooManyArguments and NotEnoughArguments are imported by the checker but
their class bodies are outside this snapshot of errors.py, so their fields
here are modelled from the spec: the spec's section 3 lists
ExpectedNumericalType(got, context), NotFunctionCall(name, context),
TooManyArguments(name, got, expected, context) and
NotEnoughArguments(name, got, expected, context), matching the checker's
call sites exactly. -/
inductive TypecheckError where
  | typeMismatch (expected_type received_type : Ty) (context : SourceContext)
  | noReturn (expected_type : Ty) (function_name : String)
      (context : SourceContext)
  | alreadyDefinedVariable (var_name : String) (context : SourceContext)
  | undefinedType (var_type : Ty) (context : SourceContext)
  | undefinedVariable (variable_name : String) (context : SourceContext)
  | expectedNumericalType (got : Ty) (context : SourceContext)
  | notFunctionCall (name : String) (context : SourceContext)
  | tooManyArguments (name : String) (got expected : Nat)
      (context : SourceContext)
  | notEnoughArguments (name : String) (got expected : Nat)
      (context : SourceContext)
  | combined (errors : List TypecheckError)

/-- What a visit can raise: err wraps a TypecheckError (the only thing the
block and program visitors catch); exc models an uncaught Python-level
exception (IndexError on an empty scope stack, RuntimeError from
resolve_type); fuel is the artifact of the embedding's explicit fuel. -/
inductive Failure where
  | err (e : TypecheckError)
  | exc (name : String)
  | fuel

/-- EnvironmentStack.get_variable_type: innermost-outward lookup,
UndefinedVariableError when no open scope binds the name. -/
def EnvironmentStack.get_variable_type (env : EnvironmentStack)
    (name : String) (context : SourceContext) : Except TypecheckError Ty :=
  match env.scopes.findSome? (fun s => s.get_variable_type name) with
  | some t => .ok t
  | none => .error (.undefinedVariable name context)

/-- EnvironmentStack.add_variable: reject a TypeIdentifier whose name no
open scope defines (UndefinedTypeError), resolve a defined TypeIdentifier
before storing, store any other type as is - always into the current
(innermost) scope. -/
def EnvironmentStack.add_variable (env : EnvironmentStack) (name : String)
    (var_type : Ty) (context : SourceContext) :
    Except Failure EnvironmentStack :=
  match var_type with
  | .typeIdentifier type_name =>
    if ¬ env.has_type type_name then
      .error (.err (.undefinedType var_type context))
    else
      match env.resolve_type type_name with
      | none => .error (.exc "RuntimeError")
      | some resolved =>
        match env.scopes with
        | [] => .error (.exc "IndexError")
        | current :: rest =>
          .ok (EnvironmentStack.mk (current.add_variable name resolved :: rest))
  | _ =>
    match env.scopes with
    | [] => .error (.exc "IndexError")
    | current :: rest =>
      .ok (EnvironmentStack.mk (current.add_variable name var_type :: rest))

/-- EnvironmentStack.add_type: add to the current scope. -/
def EnvironmentStack.add_type (env : EnvironmentStack) (name : String)
    (type_ : Ty) : EnvironmentStack :=
  match env.scopes with
  | [] => env
  | current :: rest => EnvironmentStack.mk (current.add_type name type_ :: rest)

/-- The mutable fields of a TypecheckerVisitor: the (shared) environment,
_current_function_return_type and _return_has_occured. -/
structure TcState where
  environment : EnvironmentStack
  current_function_return_type : Ty
  return_has_occured : Bool

/-- A visit returns the checked type or the raised failure, TOGETHER with
the visitor state as mutated up to that moment (a Python exception does not
roll back the environment). -/
abbrev VisitResult := Except Failure Ty × TcState

mutual

/-- TypecheckerVisitor.visit dispatch (one case per visit_ method of
zx64c/typechecker/__init__.py), with an explicit fuel argument; every case
mirrors its method body statement by statement. -/
def TypecheckerVisitor.visit : Nat → Ast → TcState → VisitResult
  | 0, _, st => (.error .fuel, st)
  | n + 1, ast, st =>
    match ast with
    | .program functions _ =>
      match TypecheckerVisitor.visit_program_functions n functions st.environment with
      | .inl (type_errors, env') =>
        if type_errors.isEmpty then (.ok .void, { st with environment := env' })
        else (.error (.err (.combined type_errors)), { st with environment := env' })
      | .inr (f, env') => (.error f, { st with environment := env' })
    | .function name parameters return_type code_block context =>
      let st1 := { st with
                     current_function_return_type := return_type,
                     return_has_occured := false }
      match st1.environment.add_variable name
          (Function.type parameters return_type) context with
      | .error f => (.error f, st1)
      | .ok env1 =>
        let function_scope := parameters.foldl
          (fun sc p => sc.add_variable p.name p.type_id) Scope.empty
        let st2 := { st1 with environment := env1.push_scope function_scope }
        match TypecheckerVisitor.visit n code_block st2 with
        | (.error f, st3) => (.error f, st3)
        | (.ok _, st3) =>
          if st3.return_has_occured = false ∧
              st3.current_function_return_type ≠ Ty.void then
            (.error (.err (.noReturn return_type name context)), st3)
          else
            (.ok .void, { st3 with environment := st3.environment.pop_scope })
    | .block statements _ =>
      let st1 := { st with environment := st.environment.push_scope Scope.empty }
      match TypecheckerVisitor.visit_block_statements n statements st1 with
      | .inl (type_errors, st2) =>
        if type_errors.isEmpty then
          (.ok .void, { st2 with environment := st2.environment.pop_scope })
        else
          (.error (.err (.combined type_errors)), st2)
      | .inr (f, st2) => (.error f, st2)
    | .ifNode condition consequence _ =>
      match TypecheckerVisitor.visit n condition st with
      | (.error f, st1) => (.error f, st1)
      | (.ok condition_type, st1) =>
        if condition_type ≠ Ty.boolT then
          (.error (.err (.typeMismatch .boolT condition_type
            condition.context)), st1)
        else
          match TypecheckerVisitor.visit n consequence st1 with
          | (.error f, st2) => (.error f, st2)
          | (.ok _, st2) => (.ok .void, st2)
    | .printNode expression _ =>
      match TypecheckerVisitor.visit n expression st with
      | (.error f, st1) => (.error f, st1)
      | (.ok _, st1) => (.ok .void, st1)
    | .letNode name var_type rhs context =>
      match TypecheckerVisitor.visit n rhs st with
      | (.error f, st1) => (.error f, st1)
      | (.ok rhs_type, st1) =>
        if st1.environment.has_variable name then
          (.error (.err (.alreadyDefinedVariable name context)), st1)
        else
          match st1.environment.add_variable name var_type context with
          | .error f => (.error f, st1)
          | .ok env1 =>
            let st2 := { st1 with environment := env1 }
            match env1.get_variable_type name context with
            | .error e => (.error (.err e), st2)
            | .ok variable_type =>
              if variable_type.is_numerical ∧ rhs_type.is_numerical then
                (.ok .void, st2)
              else if variable_type ≠ rhs_type then
                (.error (.err (.typeMismatch variable_type rhs_type context)),
                  st2)
              else (.ok .void, st2)
    | .assignment name rhs context =>
      match TypecheckerVisitor.visit n rhs st with
      | (.error f, st1) => (.error f, st1)
      | (.ok rhs_type, st1) =>
        match st1.environment.get_variable_type name context with
        | .error e => (.error (.err e), st1)
        | .ok variable_type =>
          if variable_type ≠ rhs_type then
            (.error (.err (.typeMismatch variable_type rhs_type context)), st1)
          else (.ok .void, st1)
    | .returnNode expr context =>
      match TypecheckerVisitor.visit n expr st with
      | (.error f, st1) => (.error f, st1)
      | (.ok return_type, st1) =>
        if return_type ≠ st1.current_function_return_type then
          (.error (.err (.typeMismatch st1.current_function_return_type
            return_type context)), st1)
        else (.ok .void, { st1 with return_has_occured := true })
    | .equal lhs rhs _ => TypecheckerVisitor.visit_equal n lhs rhs st
    | .notEqual lhs rhs _ => TypecheckerVisitor.visit_equal n lhs rhs st
    | .addition lhs rhs _ =>
      match TypecheckerVisitor.visit n lhs st with
      | (.error f, st1) => (.error f, st1)
      | (.ok lhs_type, st1) =>
        match TypecheckerVisitor.visit n rhs st1 with
        | (.error f, st2) => (.error f, st2)
        | (.ok rhs_type, st2) =>
          if lhs_type.is_numerical = false then
            (.error (.err (.expectedNumericalType lhs_type lhs.context)), st2)
          else if rhs_type.is_numerical = false then
            (.error (.err (.expectedNumericalType rhs_type rhs.context)), st2)
          else if lhs_type ≠ rhs_type then
            (.error (.err (.typeMismatch lhs_type rhs_type lhs.context)), st2)
          else (.ok lhs_type, st2)
    | .negation expression context =>
      match TypecheckerVisitor.visit n expression st with
      | (.error f, st1) => (.error f, st1)
      | (.ok expression_type, st1) =>
        if expression_type.is_numerical = false then
          (.error (.err (.expectedNumericalType expression_type context)), st1)
        else if expression_type = Ty.u8 then (.ok .i8, st1)
        else (.ok expression_type, st1)
    | .functionCall function_name arguments context =>
      match st.environment.get_variable_type function_name context with
      | .error e => (.error (.err e), st)
      | .ok function_type =>
        match function_type with
        | .callable return_type parameter_types =>
          let arguments_count := arguments.length
          let parameters_count := parameter_types.length
          if arguments_count > parameters_count then
            (.error (.err (.tooManyArguments function_name arguments_count
              parameters_count context)), st)
          else if arguments_count < parameters_count then
            (.error (.err (.notEnoughArguments function_name arguments_count
              parameters_count context)), st)
          else
            match TypecheckerVisitor.visit_call_arguments n arguments
                parameter_types context st with
            | (.error f, st1) => (.error f, st1)
            | (.ok _, st1) => (.ok return_type, st1)
        | _ => (.error (.err (.notFunctionCall function_name context)), st)
    | .identifier value context =>
      match st.environment.get_variable_type value context with
      | .error e => (.error (.err e), st)
      | .ok t => (.ok t, st)
    | .unsignedint _ _ => (.ok .u8, st)
    | .boolLit _ _ => (.ok .boolT, st)

/-- The loop of visit_program: each function is visited by a FRESH visitor
(reset return type and flag) sharing one environment; TypecheckErrors are
collected, anything else escapes uncaught. -/
def TypecheckerVisitor.visit_program_functions :
    Nat → List Ast → EnvironmentStack →
    (List TypecheckError × EnvironmentStack) ⊕ (Failure × EnvironmentStack)
  | _, [], env => .inl ([], env)
  | 0, _ :: _, env => .inr (.fuel, env)
  | n + 1, f :: rest, env =>
    match TypecheckerVisitor.visit n f (TcState.mk env .void false) with
    | (.ok _, st') =>
      TypecheckerVisitor.visit_program_functions n rest st'.environment
    | (.error (.err e), st') =>
      match TypecheckerVisitor.visit_program_functions n rest
          st'.environment with
      | .inl (errs, env') => .inl (e :: errs, env')
      | .inr out => .inr out
    | (.error f, st') => .inr (f, st'.environment)

/-- The loop of visit_block: visit each statement, catching and collecting
each TypecheckError individually so that one statement's error does not
prevent checking its siblings; non-TypecheckError failures escape. -/
def TypecheckerVisitor.visit_block_statements :
    Nat → List Ast → TcState →
    (List TypecheckError × TcState) ⊕ (Failure × TcState)
  | _, [], st => .inl ([], st)
  | 0, _ :: _, st => .inr (.fuel, st)
  | n + 1, s :: rest, st =>
    match TypecheckerVisitor.visit n s st with
    | (.ok _, st') => TypecheckerVisitor.visit_block_statements n rest st'
    | (.error (.err e), st') =>
      match TypecheckerVisitor.visit_block_statements n rest st' with
      | .inl (errs, st'') => .inl (e :: errs, st'')
      | .inr out => .inr out
    | (.error f, st') => .inr (f, st')

/-- TypecheckerVisitor.visit_equal, shared by visit_not_equal: both operands
are visited, a mismatch is reported at the LEFT operand's context, and the
result is Bool. -/
def TypecheckerVisitor.visit_equal : Nat → Ast → Ast → TcState → VisitResult
  | 0, _, _, st => (.error .fuel, st)
  | n + 1, lhs, rhs, st =>
    match TypecheckerVisitor.visit n lhs st with
    | (.error f, st1) => (.error f, st1)
    | (.ok lhs_type, st1) =>
      match TypecheckerVisitor.visit n rhs st1 with
      | (.error f, st2) => (.error f, st2)
      | (.ok rhs_type, st2) =>
        if lhs_type ≠ rhs_type then
          (.error (.err (.typeMismatch lhs_type rhs_type lhs.context)), st2)
        else (.ok .boolT, st2)

/-- The zip loop of visit_function_call: arguments are checked left to
right against the parameter types; the first mismatch raises TypeMismatch
at the call node's context (the zip stops at the shorter list, though the
caller only reaches this loop with equal lengths). -/
def TypecheckerVisitor.visit_call_arguments :
    Nat → List Ast → List Ty → SourceContext → TcState →
    Except Failure Unit × TcState
  | _, [], _, _, st => (.ok (), st)
  | _, _ :: _, [], _, st => (.ok (), st)
  | 0, _ :: _, _ :: _, _, st => (.error .fuel, st)
  | n + 1, argument :: args, parameter :: ps, context, st =>
    match TypecheckerVisitor.visit n argument st with
    | (.error f, st') => (.error f, st')
    | (.ok arg_type, st') =>
      if arg_type ≠ parameter then
        (.error (.err (.typeMismatch parameter arg_type context)), st')
      else TypecheckerVisitor.visit_call_arguments n args ps context st'

end

/-- The state of TypecheckerVisitor() built with no environment argument:
a fresh EnvironmentStack with one pushed empty Scope, return type Void and
the returned flag off. -/
def TypecheckerVisitor.default_state : TcState :=
  TcState.mk (EnvironmentStack.mk [Scope.empty]) .void false

/-- The per-statement outcome trace of the visit_block loop (and of the
argument loop of visit_function_call): each statement's result in the state
threaded through all the previous statements, mirroring the fuel discipline
of visit_block_statements. -/
def statement_trace : Nat → List Ast → TcState → List (Except Failure Ty)
  | _, [], _ => []
  | 0, _ :: _, _ => [.error .fuel]
  | n + 1, s :: rest, st =>
    (TypecheckerVisitor.visit n s st).1 ::
      statement_trace n rest (TypecheckerVisitor.visit n s st).2

/-- The TypecheckErrors among a list of visit outcomes, in order. -/
def errors_of (results : List (Except Failure Ty)) : List TypecheckError :=
  results.filterMap (fun r =>
    match r with
    | .error (.err e) => some e
    | _ => none)

/-- A visit outcome the block loop can handle: a success or a raised
TypecheckError (anything else escapes the except clause). -/
def is_catchable : Except Failure Ty → Bool
  | .ok _ => true
  | .error (.err _) => true
  | _ => false

/-- Is a visit outcome an error. -/
def is_error : Except Failure Ty → Bool
  | .ok _ => false
  | .error _ => true

/-- Number of tokens of a category in a token list. -/
def count_category (category : TokenCategory) (tokens : List Token) : Nat :=
  tokens.countP (fun t => decide (t.category = category))

/-- The INDENT-minus-DEDENT bookkeeping invariant of the scanner: at a loop
boundary, the INDENT tokens emitted so far exceed the DEDENT tokens emitted
so far by exactly the current indentation level. -/
def scan_invariant (st : ScanState) : Prop :=
  count_category .indent st.produced =
    count_category .dedent st.produced + st.indent_level

theorem ctx_parse_function_call (n : Nat) (t : Token) (ts : List Token)
    (node : Ast) (rest : List Token)
    (h : Parser.parse_function_call n (t :: ts) = .ok (node, rest)) :
    node.context = SourceContext.mk t.line t.column := by
  cases n with
  | zero => exact absurd h (by simp [Parser.parse_function_call])
  | succ n =>
    simp only [Parser.parse_function_call, Parser.make_context,
      Parser.current_token, bind, Except.bind, pure, Except.pure] at h
    repeat' split at h
    all_goals first
      | (injection h with h1; injection h1 with h2 h3; subst h2; rfl)
      | simp at h

theorem ctx_parse_atom (n : Nat) (t : Token) (ts : List Token)
    (node : Ast) (rest : List Token)
    (h : Parser.parse_atom n (t :: ts) = .ok (node, rest)) :
    node.context = SourceContext.mk t.line t.column := by
  cases n with
  | zero => exact absurd h (by simp [Parser.parse_atom])
  | succ n =>
    simp only [Parser.parse_atom, Parser.make_context,
      Parser.current_token, bind, Except.bind, pure, Except.pure] at h
    split at h
    · exact ctx_parse_function_call n t ts node rest h
    · repeat' split at h
      all_goals first
        | (injection h with h1; injection h1 with h2 h3; subst h2; rfl)
        | simp at h

theorem ctx_parse_program (n : Nat) (t : Token) (ts : List Token)
    (node : Ast) (rest : List Token)
    (h : Parser.parse_program n (t :: ts) = .ok (node, rest)) :
    node.context = SourceContext.mk t.line t.column := by
  cases n with
  | zero => exact absurd h (by simp [Parser.parse_program])
  | succ n =>
    simp only [Parser.parse_program, Parser.make_context,
      Parser.current_token, bind, Except.bind, pure, Except.pure] at h
    repeat' split at h
    all_goals first
      | (injection h with h1; injection h1 with h2 h3; subst h2; rfl)
      | simp at h

theorem ctx_parse_function (n : Nat) (t : Token) (ts : List Token)
    (node : Ast) (rest : List Token)
    (h : Parser.parse_function n (t :: ts) = .ok (node, rest)) :
    node.context = SourceContext.mk t.line t.column := by
  cases n with
  | zero => exact absurd h (by simp [Parser.parse_function])
  | succ n =>
    simp only [Parser.parse_function, Parser.make_context,
      Parser.current_token, bind, Except.bind, pure, Except.pure] at h
    repeat' split at h
    all_goals first
      | (injection h with h1; injection h1 with h2 h3; subst h2; rfl)
      | simp at h

theorem ctx_parse_block (n : Nat) (t : Token) (ts : List Token)
    (node : Ast) (rest : List Token)
    (h : Parser.parse_block n (t :: ts) = .ok (node, rest)) :
    node.context = SourceContext.mk t.line t.column := by
  cases n with
  | zero => exact absurd h (by simp [Parser.parse_block])
  | succ n =>
    simp only [Parser.parse_block, Parser.make_context,
      Parser.current_token, bind, Except.bind, pure, Except.pure] at h
    repeat' split at h
    all_goals first
      | (injection h with h1; injection h1 with h2 h3; subst h2; rfl)
      | simp at h

theorem ctx_parse_if (n : Nat) (t : Token) (ts : List Token)
    (node : Ast) (rest : List Token)
    (h : Parser.parse_if n (t :: ts) = .ok (node, rest)) :
    node.context = SourceContext.mk t.line t.column := by
  cases n with
  | zero => exact absurd h (by simp [Parser.parse_if])
  | succ n =>
    simp only [Parser.parse_if, Parser.make_context,
      Parser.current_token, bind, Except.bind, pure, Except.pure] at h
    repeat' split at h
    all_goals first
      | (injection h with h1; injection h1 with h2 h3; subst h2; rfl)
      | simp at h

theorem ctx_parse_print (n : Nat) (t : Token) (ts : List Token)
    (node : Ast) (rest : List Token)
    (h : Parser.parse_print n (t :: ts) = .ok (node, rest)) :
    node.context = SourceContext.mk t.line t.column := by
  cases n with
  | zero => exact absurd h (by simp [Parser.parse_print])
  | succ n =>
    simp only [Parser.parse_print, Parser.make_context,
      Parser.current_token, bind, Except.bind, pure, Except.pure] at h
    repeat' split at h
    all_goals first
      | (injection h with h1; injection h1 with h2 h3; subst h2; rfl)
      | simp at h

theorem ctx_parse_let (n : Nat) (t : Token) (ts : List Token)
    (node : Ast) (rest : List Token)
    (h : Parser.parse_let n (t :: ts) = .ok (node, rest)) :
    node.context = SourceContext.mk t.line t.column := by
  cases n with
  | zero => exact absurd h (by simp [Parser.parse_let])
  | succ n =>
    simp only [Parser.parse_let, Parser.make_context,
      Parser.current_token, bind, Except.bind, pure, Except.pure] at h
    repeat' split at h
    all_goals first
      | (injection h with h1; injection h1 with h2 h3; subst h2; rfl)
      | simp at h

theorem ctx_parse_assignment (n : Nat) (t : Token) (ts : List Token)
    (node : Ast) (rest : List Token)
    (h : Parser.parse_assignment n (t :: ts) = .ok (node, rest)) :
    node.context = SourceContext.mk t.line t.column := by
  cases n with
  | zero => exact absurd h (by simp [Parser.parse_assignment])
  | succ n =>
    simp only [Parser.parse_assignment, Parser.make_context,
      Parser.current_token, bind, Except.bind, pure, Except.pure] at h
    repeat' split at h
    all_goals first
      | (injection h with h1; injection h1 with h2 h3; subst h2; rfl)
      | simp at h

theorem ctx_parse_return (n : Nat) (t : Token) (ts : List Token)
    (node : Ast) (rest : List Token)
    (h : Parser.parse_return n (t :: ts) = .ok (node, rest)) :
    node.context = SourceContext.mk t.line t.column := by
  cases n with
  | zero => exact absurd h (by simp [Parser.parse_return])
  | succ n =>
    simp only [Parser.parse_return, Parser.make_context,
      Parser.current_token, bind, Except.bind, pure, Except.pure] at h
    repeat' split at h
    all_goals first
      | (injection h with h1; injection h1 with h2 h3; subst h2; rfl)
      | simp at h

theorem ctx_parse_factor_negation (n : Nat) (t : Token) (ts : List Token)
    (node : Ast) (rest : List Token)
    (hm : t.category = TokenCategory.minus)
    (h : Parser.parse_factor n (t :: ts) = .ok (node, rest)) :
    node.context = SourceContext.mk t.line t.column := by
  cases n with
  | zero => exact absurd h (by simp [Parser.parse_factor])
  | succ n =>
    simp only [Parser.parse_factor, Parser.make_context,
      Parser.current_token, bind, Except.bind, pure, Except.pure] at h
    rw [hm] at h
    simp only [show (TokenCategory.minus = TokenCategory.plus) = False by simp,
      if_false, if_true, show (TokenCategory.minus = TokenCategory.minus) = True by simp] at h
    repeat' split at h
    all_goals first
      | (injection h with h1; injection h1 with h2 h3; subst h2; rfl)
      | simp at h

theorem addition_built_at_plus (n : Nat) (tokens ts rest : List Token)
    (t : Token) (lhs rhs : Ast)
    (hterm : Parser.parse_term n tokens = .ok (lhs, t :: ts))
    (hplus : t.category = TokenCategory.plus)
    (hrhs : Parser.parse_expression n ts = .ok (rhs, rest)) :
    Parser.parse_expression (n + 1) tokens =
      .ok (.addition lhs rhs (SourceContext.mk t.line t.column), rest) := by
  simp only [Parser.parse_expression, Parser.current_token,
    bind, Except.bind, pure, Except.pure]
  rw [hterm]
  simp only [hplus, if_pos, List.drop_succ_cons, List.drop_zero]
  rw [hrhs]

theorem advance_keeps_bookkeeping (st : ScanState) :
    (Scanner.advance st).produced = st.produced ∧
    (Scanner.advance st).indent_level = st.indent_level := by
  unfold Scanner.advance
  split
  · exact ⟨rfl, rfl⟩
  · split <;> exact ⟨rfl, rfl⟩

theorem advance_many_keeps_bookkeeping (k : Nat) (st : ScanState) :
    (Scanner.advance_many k st).produced = st.produced ∧
    (Scanner.advance_many k st).indent_level = st.indent_level := by
  induction k generalizing st with
  | zero => exact ⟨rfl, rfl⟩
  | succ k ih =>
    rcases advance_keeps_bookkeeping st with ⟨h1, h2⟩
    rcases ih (Scanner.advance st) with ⟨h3, h4⟩
    exact ⟨h3.trans h1, h4.trans h2⟩

theorem count_category_replicate (c : TokenCategory) (k : Nat) (tok : Token) :
    count_category c (List.replicate k tok) =
      if tok.category = c then k else 0 := by
  induction k with
  | zero => simp [count_category]
  | succ k ih =>
    simp only [List.replicate_succ, count_category, List.countP_cons] at *
    split <;> simp_all

theorem count_category_append (c : TokenCategory) (l1 l2 : List Token) :
    count_category c (l1 ++ l2) = count_category c l1 + count_category c l2 :=
  List.countP_append _ _ _

theorem consume_possible_indentations_invariant (st st' : ScanState)
    (hinv : scan_invariant st)
    (h : Scanner.consume_possible_indentations st = .ok st') :
    scan_invariant st' := by
  unfold Scanner.consume_possible_indentations Scanner.count_indentations at h
  repeat' split at h
  all_goals try exact Except.noConfusion h
  all_goals injection h with h
  all_goals subst h
  all_goals first
    | exact hinv
    | (simp only [scan_invariant, count_category_append,
         count_category_replicate] at hinv ⊢
       simp at hinv ⊢
       omega)

theorem count_category_singleton (c : TokenCategory) (tok : Token) :
    count_category c [tok] = if tok.category = c then 1 else 0 := by
  simp only [count_category, List.countP_cons, List.countP_nil]
  split <;> simp_all

theorem keyword_category_not_indentation (s : String) (c : TokenCategory)
    (h : List.lookup s KEYWORD_CATEGORIES = some c) :
    c ≠ TokenCategory.indent ∧ c ≠ TokenCategory.dedent := by
  simp only [KEYWORD_CATEGORIES, List.lookup] at h
  repeat' split at h
  all_goals first
    | exact Option.noConfusion h
    | (injection h with h; subst h; exact ⟨by decide, by decide⟩)

theorem consume_one_invariant (lexeme : String) (category : TokenCategory)
    (st : ScanState) (hinv : scan_invariant st)
    (h1 : category ≠ TokenCategory.indent)
    (h2 : category ≠ TokenCategory.dedent) :
    scan_invariant (Scanner.consume_one_character_symbol lexeme category st) := by
  simp only [scan_invariant, Scanner.consume_one_character_symbol,
    count_category_append, count_category_singleton,
    (advance_keeps_bookkeeping st).1, (advance_keeps_bookkeeping st).2] at hinv ⊢
  simp [h1, h2]
  omega

theorem consume_two_invariant (lexeme : String) (category : TokenCategory)
    (st : ScanState) (hinv : scan_invariant st)
    (h1 : category ≠ TokenCategory.indent)
    (h2 : category ≠ TokenCategory.dedent) :
    scan_invariant (Scanner.consume_two_character_symbol lexeme category st) := by
  simp only [scan_invariant, Scanner.consume_two_character_symbol,
    count_category_append, count_category_singleton,
    (advance_keeps_bookkeeping (Scanner.advance st)).1,
    (advance_keeps_bookkeeping (Scanner.advance st)).2,
    (advance_keeps_bookkeeping st).1, (advance_keeps_bookkeeping st).2] at hinv ⊢
  simp [h1, h2]
  omega

theorem consume_multi_invariant (p : Char → Bool) (category : TokenCategory)
    (st : ScanState) (hinv : scan_invariant st)
    (h1 : category ≠ TokenCategory.indent)
    (h2 : category ≠ TokenCategory.dedent) :
    scan_invariant (Scanner.consume_multi_character_symbol p category st) := by
  simp only [scan_invariant, Scanner.consume_multi_character_symbol,
    count_category_append, count_category_singleton] at hinv ⊢
  simp [h1, h2]
  omega

theorem consume_keyword_invariant (p : Char → Bool) (st st' : ScanState)
    (hinv : scan_invariant st)
    (h : Scanner.consume_keyword p st = .ok st') :
    scan_invariant st' := by
  unfold Scanner.consume_keyword at h
  rcases hk : List.lookup (String.mk (st.remaining.takeWhile p))
      KEYWORD_CATEGORIES with _ | category
  · simp only [hk] at h
    exact Except.noConfusion h
  · simp only [hk] at h
    injection h with h
    subst h
    rcases keyword_category_not_indentation _ _ hk with ⟨h1, h2⟩
    simp only [scan_invariant, count_category_append,
      count_category_singleton] at hinv ⊢
    simp [h1, h2]
    omega

theorem scan_step_invariant (st st' : ScanState)
    (hinv : scan_invariant st) (h : Scanner.scan_step st = .ok st') :
    scan_invariant st' := by
  unfold Scanner.scan_step at h
  repeat' split at h
  all_goals first
    | exact Except.noConfusion h
    | exact consume_possible_indentations_invariant _ _
        (consume_one_invariant _ _ _ hinv (by decide) (by decide)) h
    | exact consume_keyword_invariant _ _ _ hinv h
    | (injection h with h; subst h;
       first
       | exact hinv
       | (simpa [scan_invariant, (advance_keeps_bookkeeping st).1,
           (advance_keeps_bookkeeping st).2] using hinv)
       | exact consume_one_invariant _ _ _ hinv (by decide) (by decide)
       | exact consume_two_invariant _ _ _ hinv (by decide) (by decide)
       | exact consume_multi_invariant _ _ _ hinv (by decide) (by decide))

theorem scan_loop_invariant (n : Nat) (st st' : ScanState)
    (hinv : scan_invariant st) (h : Scanner.scan_loop n st = .ok st') :
    scan_invariant st' := by
  induction n generalizing st with
  | zero =>
    unfold Scanner.scan_loop at h
    split at h
    · injection h with h; subst h; exact hinv
    · exact Except.noConfusion h
  | succ n ih =>
    unfold Scanner.scan_loop at h
    split at h
    · injection h with h; subst h; exact hinv
    · split at h
      · exact Except.noConfusion h
      · exact ih _ (scan_step_invariant _ _ hinv (by assumption)) h

theorem scan_step_space_skips (st : ScanState) (rest : List Char)
    (h : st.remaining = ' ' :: rest) :
    Scanner.scan_step st = .ok (Scanner.advance st) := by
  unfold Scanner.scan_step
  rw [h]
  exact rfl

theorem scan_step_uneven_raises (st : ScanState) (rest : List Char)
    (hr : st.remaining = '\n' :: rest)
    (hnotblank : (rest.dropWhile (fun c => c = ' ')).head? ≠ some '\n')
    (hcount : (rest.takeWhile (fun c => c = ' ')).length % 4 ≠ 0) :
    Scanner.scan_step st =
      .error (.unevenIndent (st.line + 1) 1
        ((rest.takeWhile (fun c => c = ' ')).length)) := by
  unfold Scanner.scan_step
  rw [hr]
  have hadv : Scanner.consume_one_character_symbol "\n" TokenCategory.newline st =
      { st with remaining := rest, line := st.line + 1, column := 1,
                produced := st.produced ++
                  [Token.mk st.line st.column .newline "\n"] } := by
    simp [Scanner.consume_one_character_symbol, Scanner.advance, hr]
  rw [hadv]
  unfold Scanner.consume_possible_indentations Scanner.count_indentations
  simp only
  split
  · next heq =>
      exact absurd (by rw [heq]; rfl) hnotblank
  · have h0 : ¬ (rest.takeWhile (fun c => c = ' ')).length = 0 := by omega
    simp [h0, hcount]

theorem scan_loop_final_newline (n : Nat) (line column indent_level : Nat)
    (produced : List Token) :
    Scanner.scan_loop (n + 2)
        (ScanState.mk ['\n'] line column indent_level produced) =
      .ok (ScanState.mk [] (line + 1) 1 0
        (produced ++ [Token.mk line column .newline "\n"] ++
          List.replicate indent_level (Token.mk (line + 1) 1 .dedent "    "))) := by
  unfold Scanner.scan_loop Scanner.scan_step
  simp [Scanner.consume_one_character_symbol, Scanner.advance,
    Scanner.consume_possible_indentations, Scanner.count_indentations,
    Scanner.advance_many, Scanner.scan_loop]

theorem scan_loop_end_of_input (n : Nat) (st : ScanState)
    (h : st.remaining = []) : Scanner.scan_loop n st = .ok st := by
  cases n <;> (unfold Scanner.scan_loop; rw [h])

theorem add_variable_ok_length (env env' : EnvironmentStack) (name : String)
    (var_type : Ty) (context : SourceContext)
    (h : env.add_variable name var_type context = .ok env') :
    env'.scopes.length = env.scopes.length := by
  unfold EnvironmentStack.add_variable at h
  repeat' split at h
  all_goals first
    | exact Except.noConfusion h
    | (injection h with h; subst h; simp_all)

theorem pop_scope_length (env : EnvironmentStack) :
    env.pop_scope.scopes.length = env.scopes.length - 1 := by
  simp [EnvironmentStack.pop_scope]

theorem push_scope_length (env : EnvironmentStack) (s : Scope) :
    (env.push_scope s).scopes.length = env.scopes.length + 1 := by
  simp [EnvironmentStack.push_scope]

theorem visit_depth (n : Nat) :
    (∀ ast st r st', TypecheckerVisitor.visit n ast st = (r, st') →
      st.environment.scopes.length ≤ st'.environment.scopes.length ∧
      (∀ t, r = .ok t →
        st'.environment.scopes.length = st.environment.scopes.length)) ∧
    (∀ fs env errs env',
      TypecheckerVisitor.visit_program_functions n fs env = .inl (errs, env') →
      env.scopes.length ≤ env'.scopes.length ∧
      (errs = [] → env'.scopes.length = env.scopes.length)) ∧
    (∀ fs env f env',
      TypecheckerVisitor.visit_program_functions n fs env = .inr (f, env') →
      env.scopes.length ≤ env'.scopes.length) ∧
    (∀ ss st errs st',
      TypecheckerVisitor.visit_block_statements n ss st = .inl (errs, st') →
      st.environment.scopes.length ≤ st'.environment.scopes.length ∧
      (errs = [] →
        st'.environment.scopes.length = st.environment.scopes.length)) ∧
    (∀ ss st f st',
      TypecheckerVisitor.visit_block_statements n ss st = .inr (f, st') →
      st.environment.scopes.length ≤ st'.environment.scopes.length) ∧
    (∀ lhs rhs st r st',
      TypecheckerVisitor.visit_equal n lhs rhs st = (r, st') →
      st.environment.scopes.length ≤ st'.environment.scopes.length ∧
      (∀ t, r = .ok t →
        st'.environment.scopes.length = st.environment.scopes.length)) ∧
    (∀ args ps cx st r st',
      TypecheckerVisitor.visit_call_arguments n args ps cx st = (r, st') →
      st.environment.scopes.length ≤ st'.environment.scopes.length ∧
      (∀ u, r = .ok u →
        st'.environment.scopes.length = st.environment.scopes.length)) := by
  induction n with
  | zero =>
    refine ⟨?_, ?_, ?_, ?_, ?_, ?_, ?_⟩
    · intro ast st r st' h
      simp only [TypecheckerVisitor.visit] at h
      injection h with h1 h2
      subst h1; subst h2
      exact ⟨Nat.le_refl _, fun t ht => nomatch ht⟩
    · intro fs env errs env' h
      cases fs <;> simp only [TypecheckerVisitor.visit_program_functions] at h
      · injection h with h; injection h with h1 h2; subst h1; subst h2
        exact ⟨Nat.le_refl _, fun _ => rfl⟩
      · exact Sum.noConfusion h
    · intro fs env f env' h
      cases fs <;> simp only [TypecheckerVisitor.visit_program_functions] at h
      · exact Sum.noConfusion h
      · injection h with h; injection h with h1 h2; subst h2
        exact Nat.le_refl _
    · intro ss st errs st' h
      cases ss <;> simp only [TypecheckerVisitor.visit_block_statements] at h
      · injection h with h; injection h with h1 h2; subst h1; subst h2
        exact ⟨Nat.le_refl _, fun _ => rfl⟩
      · exact Sum.noConfusion h
    · intro ss st f st' h
      cases ss <;> simp only [TypecheckerVisitor.visit_block_statements] at h
      · exact Sum.noConfusion h
      · injection h with h; injection h with h1 h2; subst h2
        exact Nat.le_refl _
    · intro lhs rhs st r st' h
      simp only [TypecheckerVisitor.visit_equal] at h
      injection h with h1 h2
      subst h1; subst h2
      exact ⟨Nat.le_refl _, fun t ht => nomatch ht⟩
    · intro args ps cx st r st' h
      cases args <;> cases ps <;>
        simp only [TypecheckerVisitor.visit_call_arguments] at h <;>
        injection h with h1 h2 <;> subst h1 <;> subst h2
      all_goals exact ⟨Nat.le_refl _, fun u ht => rfl⟩
  | succ n ih =>
    obtain ⟨ihv, ihp1, ihp2, ihb1, ihb2, ihe, iha⟩ := ih
    refine ⟨?_, ?_, ?_, ?_, ?_, ?_, ?_⟩
    · intro ast st r st' h
      cases ast with
      | program functions c =>
        simp only [TypecheckerVisitor.visit] at h
        rcases hp : TypecheckerVisitor.visit_program_functions n functions
            st.environment with ⟨errs, env'⟩ | ⟨f, env'⟩
        · simp only [hp] at h
          obtain ⟨hle, hnil⟩ := ihp1 functions st.environment errs env' hp
          split at h
          · next hempty =>
            injection h with h1 h2; subst h1; subst h2
            refine ⟨by simpa using hle, fun t ht => ?_⟩
            have hne : errs = [] := by simpa [List.isEmpty_iff] using hempty
            simpa using hnil hne
          · injection h with h1 h2; subst h1; subst h2
            exact ⟨by simpa using hle, fun t ht => nomatch ht⟩
        · simp only [hp] at h
          have hle := ihp2 functions st.environment f env' hp
          injection h with h1 h2; subst h1; subst h2
          exact ⟨by simpa using hle, fun t ht => nomatch ht⟩
      | function name parameters return_type code_block c =>
        simp only [TypecheckerVisitor.visit] at h
        rcases hadd : st.environment.add_variable name
            (Function.type parameters return_type) c with f1 | env1
        · simp only [hadd] at h
          injection h with h1 h2; subst h1; subst h2
          exact ⟨Nat.le_refl _, fun t ht => nomatch ht⟩
        · simp only [hadd] at h
          have hl1 := add_variable_ok_length _ _ _ _ _ hadd
          split at h
          next f3 st3 hb =>
            injection h with h1 h2; subst h1; subst h2
            have hle3 := (ihv _ _ _ _ hb).1
            simp only [push_scope_length] at hle3
            exact ⟨by omega, fun t ht => nomatch ht⟩
          next t3 st3 hb =>
            have hle3 := (ihv _ _ _ _ hb).1
            have heq3 := (ihv _ _ _ _ hb).2 _ rfl
            simp only [push_scope_length] at hle3 heq3
            split at h
            · injection h with h1 h2; subst h1; subst h2
              exact ⟨by omega, fun t ht => nomatch ht⟩
            · injection h with h1 h2; subst h1; subst h2
              refine ⟨?_, fun t ht => ?_⟩ <;>
                simp only [pop_scope_length] <;> omega
      | block statements c =>
        simp only [TypecheckerVisitor.visit] at h
        split at h
        next errs st2 hbs =>
          obtain ⟨hle, hnil⟩ := ihb1 _ _ _ _ hbs
          simp only [push_scope_length] at hle hnil
          split at h
          · next hempty =>
            injection h with h1 h2; subst h1; subst h2
            have hne : errs = [] := by simpa [List.isEmpty_iff] using hempty
            have heqq := hnil hne
            refine ⟨?_, fun t ht => ?_⟩ <;>
              simp only [pop_scope_length] <;> omega
          · injection h with h1 h2; subst h1; subst h2
            exact ⟨by omega, fun t ht => nomatch ht⟩
        next f st2 hbs =>
          have hle := ihb2 _ _ _ _ hbs
          simp only [push_scope_length] at hle
          injection h with h1 h2; subst h1; subst h2
          exact ⟨by omega, fun t ht => nomatch ht⟩
      | ifNode condition consequence c =>
        simp only [TypecheckerVisitor.visit] at h
        split at h
        next f1 st1 hc1 =>
          injection h with h1 h2; subst h1; subst h2
          exact ⟨(ihv _ _ _ _ hc1).1, fun t ht => nomatch ht⟩
        next t1 st1 hc1 =>
          have heq1 := (ihv _ _ _ _ hc1).2 _ rfl
          split at h
          · injection h with h1 h2; subst h1; subst h2
            exact ⟨by omega, fun t ht => nomatch ht⟩
          · split at h
            next f2 st2 hc2 =>
              injection h with h1 h2; subst h1; subst h2
              have hle2 := (ihv _ _ _ _ hc2).1
              exact ⟨by omega, fun t ht => nomatch ht⟩
            next t2 st2 hc2 =>
              injection h with h1 h2; subst h1; subst h2
              have heq2 := (ihv _ _ _ _ hc2).2 _ rfl
              exact ⟨by omega, fun t ht => by omega⟩
      | printNode expression c =>
        simp only [TypecheckerVisitor.visit] at h
        split at h
        next f1 st1 hc1 =>
          injection h with h1 h2; subst h1; subst h2
          exact ⟨(ihv _ _ _ _ hc1).1, fun t ht => nomatch ht⟩
        next t1 st1 hc1 =>
          injection h with h1 h2; subst h1; subst h2
          have heq1 := (ihv _ _ _ _ hc1).2 _ rfl
          exact ⟨by omega, fun t ht => by omega⟩
      | letNode name var_type rhs c =>
        simp only [TypecheckerVisitor.visit] at h
        split at h
        next f1 st1 hc1 =>
          injection h with h1 h2; subst h1; subst h2
          exact ⟨(ihv _ _ _ _ hc1).1, fun t ht => nomatch ht⟩
        next t1 st1 hc1 =>
          have heq1 := (ihv _ _ _ _ hc1).2 _ rfl
          split at h
          · injection h with h1 h2; subst h1; subst h2
            exact ⟨by omega, fun t ht => nomatch ht⟩
          · split at h
            next f2 hadd =>
              injection h with h1 h2; subst h1; subst h2
              exact ⟨by omega, fun t ht => nomatch ht⟩
            next env2 hadd =>
              have hl2 := add_variable_ok_length _ _ _ _ _ hadd
              split at h
              next e3 hg =>
                injection h with h1 h2; subst h1; subst h2
                constructor
                · show st.environment.scopes.length ≤ env2.scopes.length
                  omega
                · exact fun t ht => nomatch ht
              next t3 hg =>
                split at h
                · injection h with h1 h2; subst h1; subst h2
                  constructor
                  · show st.environment.scopes.length ≤ env2.scopes.length
                    omega
                  · intro t ht
                    show env2.scopes.length = st.environment.scopes.length
                    omega
                · split at h
                  · injection h with h1 h2; subst h1; subst h2
                    constructor
                    · show st.environment.scopes.length ≤ env2.scopes.length
                      omega
                    · exact fun t ht => nomatch ht
                  · injection h with h1 h2; subst h1; subst h2
                    constructor
                    · show st.environment.scopes.length ≤ env2.scopes.length
                      omega
                    · intro t ht
                      show env2.scopes.length = st.environment.scopes.length
                      omega
      | assignment name rhs c =>
        simp only [TypecheckerVisitor.visit] at h
        split at h
        next f1 st1 hc1 =>
          injection h with h1 h2; subst h1; subst h2
          exact ⟨(ihv _ _ _ _ hc1).1, fun t ht => nomatch ht⟩
        next t1 st1 hc1 =>
          have heq1 := (ihv _ _ _ _ hc1).2 _ rfl
          split at h
          next e2 hg =>
            injection h with h1 h2; subst h1; subst h2
            exact ⟨by omega, fun t ht => nomatch ht⟩
          next t2 hg =>
            split at h
            · injection h with h1 h2; subst h1; subst h2
              exact ⟨by omega, fun t ht => nomatch ht⟩
            · injection h with h1 h2; subst h1; subst h2
              exact ⟨by omega, fun t ht => by omega⟩
      | returnNode expr c =>
        simp only [TypecheckerVisitor.visit] at h
        split at h
        next f1 st1 hc1 =>
          injection h with h1 h2; subst h1; subst h2
          exact ⟨(ihv _ _ _ _ hc1).1, fun t ht => nomatch ht⟩
        next t1 st1 hc1 =>
          have heq1 := (ihv _ _ _ _ hc1).2 _ rfl
          split at h
          · injection h with h1 h2; subst h1; subst h2
            exact ⟨by omega, fun t ht => nomatch ht⟩
          · injection h with h1 h2; subst h1; subst h2
            constructor
            · show st.environment.scopes.length ≤ st1.environment.scopes.length
              omega
            · intro t ht
              show st1.environment.scopes.length = st.environment.scopes.length
              omega
      | equal lhs rhs c =>
        simp only [TypecheckerVisitor.visit] at h
        exact ⟨(ihe _ _ _ _ _ h).1, (ihe _ _ _ _ _ h).2⟩
      | notEqual lhs rhs c =>
        simp only [TypecheckerVisitor.visit] at h
        exact ⟨(ihe _ _ _ _ _ h).1, (ihe _ _ _ _ _ h).2⟩
      | addition lhs rhs c =>
        simp only [TypecheckerVisitor.visit] at h
        split at h
        next f1 st1 hc1 =>
          injection h with h1 h2; subst h1; subst h2
          exact ⟨(ihv _ _ _ _ hc1).1, fun t ht => nomatch ht⟩
        next t1 st1 hc1 =>
          have heq1 := (ihv _ _ _ _ hc1).2 _ rfl
          split at h
          next f2 st2 hc2 =>
            injection h with h1 h2; subst h1; subst h2
            have hle2 := (ihv _ _ _ _ hc2).1
            exact ⟨by omega, fun t ht => nomatch ht⟩
          next t2 st2 hc2 =>
            have heq2 := (ihv _ _ _ _ hc2).2 _ rfl
            split at h
            · injection h with h1 h2; subst h1; subst h2
              exact ⟨by omega, fun t ht => nomatch ht⟩
            · split at h
              · injection h with h1 h2; subst h1; subst h2
                exact ⟨by omega, fun t ht => nomatch ht⟩
              · split at h
                · injection h with h1 h2; subst h1; subst h2
                  exact ⟨by omega, fun t ht => nomatch ht⟩
                · injection h with h1 h2; subst h1; subst h2
                  exact ⟨by omega, fun t ht => by omega⟩
      | negation expression c =>
        simp only [TypecheckerVisitor.visit] at h
        split at h
        next f1 st1 hc1 =>
          injection h with h1 h2; subst h1; subst h2
          exact ⟨(ihv _ _ _ _ hc1).1, fun t ht => nomatch ht⟩
        next t1 st1 hc1 =>
          have heq1 := (ihv _ _ _ _ hc1).2 _ rfl
          split at h
          · injection h with h1 h2; subst h1; subst h2
            exact ⟨by omega, fun t ht => nomatch ht⟩
          · split at h
            · injection h with h1 h2; subst h1; subst h2
              exact ⟨by omega, fun t ht => by omega⟩
            · injection h with h1 h2; subst h1; subst h2
              exact ⟨by omega, fun t ht => by omega⟩
      | functionCall function_name arguments c =>
        simp only [TypecheckerVisitor.visit] at h
        split at h
        next e1 hg =>
          injection h with h1 h2; subst h1; subst h2
          exact ⟨Nat.le_refl _, fun t ht => nomatch ht⟩
        next ft hg =>
          split at h
          next return_type parameter_types =>
            split at h
            · injection h with h1 h2; subst h1; subst h2
              exact ⟨Nat.le_refl _, fun t ht => nomatch ht⟩
            · split at h
              · injection h with h1 h2; subst h1; subst h2
                exact ⟨Nat.le_refl _, fun t ht => nomatch ht⟩
              · split at h
                next f2 st2 hca =>
                  injection h with h1 h2; subst h1; subst h2
                  exact ⟨(iha _ _ _ _ _ _ hca).1, fun t ht => nomatch ht⟩
                next u2 st2 hca =>
                  injection h with h1 h2; subst h1; subst h2
                  have heq2 := (iha _ _ _ _ _ _ hca).2 _ rfl
                  exact ⟨by omega, fun t ht => by omega⟩
          next hnc =>
            injection h with h1 h2; subst h1; subst h2
            exact ⟨Nat.le_refl _, fun t ht => nomatch ht⟩
      | identifier value c =>
        simp only [TypecheckerVisitor.visit] at h
        split at h <;> (injection h with h1 h2; subst h1; subst h2)
        · exact ⟨Nat.le_refl _, fun t ht => nomatch ht⟩
        · exact ⟨Nat.le_refl _, fun t ht => rfl⟩
      | unsignedint value c =>
        simp only [TypecheckerVisitor.visit] at h
        injection h with h1 h2; subst h1; subst h2
        exact ⟨Nat.le_refl _, fun t ht => rfl⟩
      | boolLit value c =>
        simp only [TypecheckerVisitor.visit] at h
        injection h with h1 h2; subst h1; subst h2
        exact ⟨Nat.le_refl _, fun t ht => rfl⟩
    · intro fs env errs env' h
      cases fs with
      | nil =>
        simp only [TypecheckerVisitor.visit_program_functions] at h
        injection h with h; injection h with h1 h2; subst h1; subst h2
        exact ⟨Nat.le_refl _, fun _ => rfl⟩
      | cons f rest =>
        simp only [TypecheckerVisitor.visit_program_functions] at h
        split at h
        next t1 st1 hv =>
          have heq1 : st1.environment.scopes.length = env.scopes.length :=
            (ihv _ _ _ _ hv).2 _ rfl
          obtain ⟨hle, hnil⟩ := ihp1 _ _ _ _ h
          exact ⟨by omega, fun hne => by have := hnil hne; omega⟩
        next e1 st1 hv =>
          have hle1 : env.scopes.length ≤ st1.environment.scopes.length :=
            (ihv _ _ _ _ hv).1
          split at h
          next errs2 env2 hrec =>
            injection h with h; injection h with h1 h2; subst h1; subst h2
            obtain ⟨hle2, hnil2⟩ := ihp1 _ _ _ _ hrec
            exact ⟨by omega, fun hne => nomatch hne⟩
          next out hrec =>
            exact Sum.noConfusion h
        next f1 st1 hv =>
          exact Sum.noConfusion h
    · intro fs env f env' h
      cases fs with
      | nil =>
        simp only [TypecheckerVisitor.visit_program_functions] at h
        exact Sum.noConfusion h
      | cons g rest =>
        simp only [TypecheckerVisitor.visit_program_functions] at h
        split at h
        next t1 st1 hv =>
          have heq1 : st1.environment.scopes.length = env.scopes.length :=
            (ihv _ _ _ _ hv).2 _ rfl
          have hle := ihp2 _ _ _ _ h
          omega
        next e1 st1 hv =>
          have hle1 : env.scopes.length ≤ st1.environment.scopes.length :=
            (ihv _ _ _ _ hv).1
          split at h
          next errs2 env2 hrec =>
            exact Sum.noConfusion h
          next out hrec =>
            rcases out with ⟨fo, envo⟩
            injection h with h
            injection h with h1 h2
            subst h2
            have hle2 := ihp2 _ _ _ _ hrec
            omega
        next =>
          injection h with h; injection h with h1 h2; subst h2
          exact (ihv g (TcState.mk env Ty.void false) _ _ (by assumption)).1
    · intro ss st errs st' h
      cases ss with
      | nil =>
        simp only [TypecheckerVisitor.visit_block_statements] at h
        injection h with h; injection h with h1 h2; subst h1; subst h2
        exact ⟨Nat.le_refl _, fun _ => rfl⟩
      | cons s rest =>
        simp only [TypecheckerVisitor.visit_block_statements] at h
        split at h
        next t1 st1 hv =>
          have heq1 : st1.environment.scopes.length =
              st.environment.scopes.length := (ihv _ _ _ _ hv).2 _ rfl
          obtain ⟨hle, hnil⟩ := ihb1 _ _ _ _ h
          exact ⟨by omega, fun hne => by have := hnil hne; omega⟩
        next e1 st1 hv =>
          have hle1 : st.environment.scopes.length ≤
              st1.environment.scopes.length := (ihv _ _ _ _ hv).1
          split at h
          next errs2 st2 hrec =>
            injection h with h; injection h with h1 h2; subst h1; subst h2
            obtain ⟨hle2, hnil2⟩ := ihb1 _ _ _ _ hrec
            exact ⟨by omega, fun hne => nomatch hne⟩
          next out hrec =>
            exact Sum.noConfusion h
        next f1 st1 hv =>
          exact Sum.noConfusion h
    · intro ss st f st' h
      cases ss with
      | nil =>
        simp only [TypecheckerVisitor.visit_block_statements] at h
        exact Sum.noConfusion h
      | cons s rest =>
        simp only [TypecheckerVisitor.visit_block_statements] at h
        split at h
        next t1 st1 hv =>
          have heq1 : st1.environment.scopes.length =
              st.environment.scopes.length := (ihv _ _ _ _ hv).2 _ rfl
          have hle := ihb2 _ _ _ _ h
          omega
        next e1 st1 hv =>
          have hle1 : st.environment.scopes.length ≤
              st1.environment.scopes.length := (ihv _ _ _ _ hv).1
          split at h
          next errs2 st2 hrec =>
            exact Sum.noConfusion h
          next out hrec =>
            rcases out with ⟨fo, sto⟩
            injection h with h
            injection h with h1 h2
            subst h2
            have hle2 := ihb2 _ _ _ _ hrec
            omega
        next =>
          injection h with h; injection h with h1 h2; subst h2
          exact (ihv s st _ _ (by assumption)).1
    · intro lhs rhs st r st' h
      simp only [TypecheckerVisitor.visit_equal] at h
      split at h
      next f1 st1 hc1 =>
        injection h with h1 h2; subst h1; subst h2
        exact ⟨(ihv _ _ _ _ hc1).1, fun t ht => nomatch ht⟩
      next t1 st1 hc1 =>
        have heq1 := (ihv _ _ _ _ hc1).2 _ rfl
        split at h
        next f2 st2 hc2 =>
          injection h with h1 h2; subst h1; subst h2
          have hle2 := (ihv _ _ _ _ hc2).1
          exact ⟨by omega, fun t ht => nomatch ht⟩
        next t2 st2 hc2 =>
          have heq2 := (ihv _ _ _ _ hc2).2 _ rfl
          split at h
          · injection h with h1 h2; subst h1; subst h2
            exact ⟨by omega, fun t ht => nomatch ht⟩
          · injection h with h1 h2; subst h1; subst h2
            exact ⟨by omega, fun t ht => by omega⟩
    · intro args ps cx st r st' h
      cases args with
      | nil =>
        simp only [TypecheckerVisitor.visit_call_arguments] at h
        injection h with h1 h2; subst h1; subst h2
        exact ⟨Nat.le_refl _, fun u ht => rfl⟩
      | cons a rest =>
        cases ps with
        | nil =>
          simp only [TypecheckerVisitor.visit_call_arguments] at h
          injection h with h1 h2; subst h1; subst h2
          exact ⟨Nat.le_refl _, fun u ht => rfl⟩
        | cons p ps' =>
          simp only [TypecheckerVisitor.visit_call_arguments] at h
          split at h
          next f1 st1 hc1 =>
            injection h with h1 h2; subst h1; subst h2
            exact ⟨(ihv _ _ _ _ hc1).1, fun u ht => nomatch ht⟩
          next t1 st1 hc1 =>
            have heq1 := (ihv _ _ _ _ hc1).2 _ rfl
            split at h
            · injection h with h1 h2; subst h1; subst h2
              exact ⟨by omega, fun u ht => nomatch ht⟩
            · obtain ⟨hle2, hok2⟩ := iha _ _ _ _ _ _ h
              exact ⟨by omega, fun u ht => by have := hok2 u ht; omega⟩

theorem errors_of_length (tr : List (Except Failure Ty))
    (h : ∀ r ∈ tr, is_catchable r = true) :
    (errors_of tr).length = tr.countP is_error := by
  induction tr with
  | nil => rfl
  | cons r rest ih =>
    have hr := h r (List.mem_cons_self _ _)
    have hrest := fun x hx => h x (List.mem_cons_of_mem _ hx)
    cases r with
    | ok t =>
      simp [errors_of, is_error, List.countP_cons]
      exact ih hrest
    | error f =>
      cases f with
      | err e =>
        simp [errors_of, is_error, List.countP_cons]
        exact ih hrest
      | exc s => simp [is_catchable] at hr
      | fuel => simp [is_catchable] at hr

theorem block_statements_trace (ss : List Ast) : ∀ (n : Nat) (st : TcState),
    (∀ r ∈ statement_trace n ss st, is_catchable r = true) →
    ∃ st', TypecheckerVisitor.visit_block_statements n ss st =
        .inl (errors_of (statement_trace n ss st), st') ∧
      (statement_trace n ss st).length = ss.length := by
  induction ss with
  | nil =>
    intro n st h
    exact ⟨st, by cases n <;> rfl, by cases n <;> rfl⟩
  | cons s rest ih =>
    intro n st h
    cases n with
    | zero =>
      exfalso
      have := h (.error .fuel) (by simp [statement_trace])
      simp [is_catchable] at this
    | succ n =>
      rcases hv : TypecheckerVisitor.visit n s st with ⟨r1, st1⟩
      have htr : statement_trace (n + 1) (s :: rest) st =
          r1 :: statement_trace n rest st1 := by
        simp [statement_trace, hv]
      have hr1 : is_catchable r1 = true := by
        apply h r1
        rw [htr]
        exact List.mem_cons_self _ _
      have hrest : ∀ r ∈ statement_trace n rest st1, is_catchable r = true := by
        intro r hr
        apply h r
        rw [htr]
        exact List.mem_cons_of_mem _ hr
      obtain ⟨st', hbs, hlen⟩ := ih n st1 hrest
      cases r1 with
      | ok t =>
        refine ⟨st', ?_, by simp [htr, hlen]⟩
        simp only [TypecheckerVisitor.visit_block_statements, hv, hbs, htr]
        simp [errors_of]
      | error f =>
        cases f with
        | err e =>
          refine ⟨st', ?_, by simp [htr, hlen]⟩
          simp only [TypecheckerVisitor.visit_block_statements, hv, hbs, htr]
          simp [errors_of]
        | exc s2 => simp [is_catchable] at hr1
        | fuel => simp [is_catchable] at hr1

theorem call_arguments_all_ok (args : List Ast) :
    ∀ (n : Nat) (ps : List Ty) (cx : SourceContext) (st : TcState),
    statement_trace n args st = ps.map (fun p => Except.ok p) →
    ∃ st', TypecheckerVisitor.visit_call_arguments n args ps cx st =
      (.ok (), st') := by
  induction args with
  | nil =>
    intro n ps cx st h
    refine ⟨st, ?_⟩
    cases n <;> simp [TypecheckerVisitor.visit_call_arguments]
  | cons a rest ih =>
    intro n ps cx st h
    cases ps with
    | nil =>
      exfalso
      cases n <;> simp [statement_trace] at h
    | cons p ps' =>
      cases n with
      | zero => simp [statement_trace] at h
      | succ n =>
        rcases hv : TypecheckerVisitor.visit n a st with ⟨r1, st1⟩
        simp only [statement_trace, hv, List.map] at h
        injection h with h1 h2
        obtain ⟨st', hrec⟩ := ih n ps' cx st1 h2
        refine ⟨st', ?_⟩
        simp only [TypecheckerVisitor.visit_call_arguments, hv, h1]
        simp [hrec]

theorem call_arguments_first_mismatch (pre : List Ast) :
    ∀ (n : Nat) (psPre : List Ty) (a : Ast) (post : List Ast) (p : Ty)
      (psPost : List Ty) (cx : SourceContext) (st : TcState) (t : Ty),
    psPre.length = pre.length →
    (statement_trace n (pre ++ a :: post) st).take (pre.length + 1) =
      psPre.map (fun q => Except.ok q) ++ [Except.ok t] →
    t ≠ p →
    ∃ st', TypecheckerVisitor.visit_call_arguments n (pre ++ a :: post)
        (psPre ++ p :: psPost) cx st =
      (.error (.err (.typeMismatch p t cx)), st') := by
  induction pre with
  | nil =>
    intro n psPre a post p psPost cx st t hlen htake hne
    have hps : psPre = [] := List.length_eq_zero.mp hlen
    subst hps
    cases n with
    | zero => simp [statement_trace] at htake
    | succ n =>
      rcases hv : TypecheckerVisitor.visit n a st with ⟨r1, st1⟩
      simp only [List.nil_append, statement_trace, hv, List.map,
        List.take, List.nil_append] at htake
      injection htake with h1 h2
      refine ⟨st1, ?_⟩
      simp only [List.nil_append, TypecheckerVisitor.visit_call_arguments,
        hv, h1]
      simp [hne]
  | cons q pre' ih =>
    intro n psPre a post p psPost cx st t hlen htake hne
    cases psPre with
    | nil => simp at hlen
    | cons pq psPre' =>
      cases n with
      | zero => simp [statement_trace] at htake
      | succ n =>
        rcases hv : TypecheckerVisitor.visit n q st with ⟨r1, st1⟩
        simp only [List.cons_append, statement_trace, hv, List.map,
          List.length_cons, List.take, List.cons_append] at htake
        injection htake with h1 h2
        simp only [List.length_cons] at hlen
        obtain ⟨st', hrec⟩ := ih n psPre' a post p psPost cx st1 t
          (by omega) (by simpa using h2) hne
        refine ⟨st', ?_⟩
        simp only [List.cons_append, TypecheckerVisitor.visit_call_arguments,
          hv, h1]
        simp [hrec]

theorem add_variable_never_already_defined (env : EnvironmentStack)
    (name : String) (var_type : Ty) (cx : SourceContext) (f : Failure)
    (name2 : String) (cx2 : SourceContext)
    (h : env.add_variable name var_type cx = .error f) :
    f ≠ .err (.alreadyDefinedVariable name2 cx2) := by
  unfold EnvironmentStack.add_variable at h
  repeat' split at h
  all_goals first
    | exact Except.noConfusion h
    | (injection h with h; subst h; simp)

theorem lookup_dict_insert_self (d : List (String × Ty)) (k : String)
    (v : Ty) : List.lookup k (dict_insert d k v) = some v := by
  induction d with
  | nil => simp [dict_insert, List.lookup]
  | cons kv rest ih =>
    rcases kv with ⟨k', v'⟩
    simp only [dict_insert]
    split
    · simp [List.lookup]
    · next hne =>
      have hkk : (k == k') = false := by
        simp only [beq_eq_false_iff_ne, ne_eq]
        exact fun hc => hne hc.symm
      simp [List.lookup, hkk, ih]

theorem lookup_dict_insert_ne (d : List (String × Ty)) (k k2 : String)
    (v : Ty) (hne : k ≠ k2) :
    List.lookup k (dict_insert d k2 v) = List.lookup k d := by
  have hkk2 : (k == k2) = false := by simpa using hne
  induction d with
  | nil => simp [dict_insert, List.lookup, hkk2]
  | cons kv rest ih =>
    rcases kv with ⟨k', v'⟩
    simp only [dict_insert]
    split
    · next heq => subst heq; simp [List.lookup, hkk2]
    · cases hkk : k == k' <;> simp [List.lookup, hkk, ih]

theorem param_scope_lookup_none (parameters : List Parameter) (name : String)
    (h : name ∉ parameters.map Parameter.name) :
    Scope.get_variable_type
      (parameters.foldl (fun sc p => sc.add_variable p.name p.type_id)
        Scope.empty) name = none := by
  suffices H : ∀ sc : Scope, Scope.get_variable_type sc name = none →
      Scope.get_variable_type
        (parameters.foldl (fun sc p => sc.add_variable p.name p.type_id) sc)
        name = none from H Scope.empty rfl
  induction parameters with
  | nil => intro sc hsc; simpa using hsc
  | cons p rest ih =>
    intro sc hsc
    simp only [List.map, List.mem_cons] at h
    push_neg at h
    simp only [List.foldl_cons]
    apply ih h.2
    simp only [Scope.get_variable_type, Scope.add_variable] at hsc ⊢
    rw [lookup_dict_insert_ne _ _ _ _ h.1]
    exact hsc

theorem function_registered_before_body (st : TcState) (name : String)
    (parameters : List Parameter) (return_type : Ty)
    (cx cx2 : SourceContext) (env1 : EnvironmentStack)
    (hadd : st.environment.add_variable name
      (Function.type parameters return_type) cx = .ok env1)
    (hname : name ∉ parameters.map Parameter.name) :
    (env1.push_scope
        (parameters.foldl (fun sc p => sc.add_variable p.name p.type_id)
          Scope.empty)).get_variable_type name cx2 =
      .ok (Function.type parameters return_type) := by
  unfold EnvironmentStack.add_variable at hadd
  simp only [Function.type] at hadd ⊢
  split at hadd
  · exact Except.noConfusion hadd
  · next current rest' heq =>
    injection hadd with hadd
    subst hadd
    simp only [EnvironmentStack.push_scope, EnvironmentStack.get_variable_type,
      List.findSome?]
    rw [param_scope_lookup_none parameters name hname]
    simp only [Scope.add_variable, Scope.get_variable_type, List.findSome?]
    rw [lookup_dict_insert_self]

/-- Counterexample to C1 as written: visiting a FUNCTION node whose body has
no return raises NoReturnError while the function scope and the parameter
scope are still pushed, so the visit ends two scopes deeper than it began:
the raise at the end of visit_function precedes both pop_scope calls. -/
theorem c1_counterexample :
    (TypecheckerVisitor.visit 9
        (.function "f" [] .u8 (.block [] (SourceContext.mk 0 0))
          (SourceContext.mk 0 0))
        TypecheckerVisitor.default_state).1 =
      .error (.err (.noReturn .u8 "f" (SourceContext.mk 0 0))) ∧
    (TypecheckerVisitor.visit 9
        (.function "f" [] .u8 (.block [] (SourceContext.mk 0 0))
          (SourceContext.mk 0 0))
        TypecheckerVisitor.default_state).2.environment.scopes.length = 2 ∧
    TypecheckerVisitor.default_state.environment.scopes.length = 1 :=
  ⟨rfl, rfl, rfl⟩

/-- Claim C1 (corrected): scope balance holds on every SUCCESSFUL visit (a
visit that returns ok leaves the environment depth exactly as it found it),
but on the error paths of visit_block and visit_function the error is raised
BEFORE pop_scope, so the depth can only grow, never shrink. -/
theorem c1_scope_balance :
    (∀ (n : Nat) (ast : Ast) (st : TcState) (t : Ty) (st' : TcState),
      TypecheckerVisitor.visit n ast st = (.ok t, st') →
      st'.environment.scopes.length = st.environment.scopes.length) ∧
    (∀ (n : Nat) (statements : List Ast) (cx : SourceContext) (st : TcState)
      (f : Failure) (st' : TcState),
      TypecheckerVisitor.visit (n + 1) (.block statements cx) st =
        (.error f, st') →
      st.environment.scopes.length + 1 ≤ st'.environment.scopes.length) ∧
    (∀ (n : Nat) (name : String) (parameters : List Parameter)
      (return_type : Ty) (code_block : Ast) (cx : SourceContext)
      (st : TcState) (env1 : EnvironmentStack) (f : Failure) (st' : TcState),
      st.environment.add_variable name
        (Function.type parameters return_type) cx = .ok env1 →
      TypecheckerVisitor.visit (n + 1)
          (.function name parameters return_type code_block cx) st =
        (.error f, st') →
      st.environment.scopes.length + 1 ≤ st'.environment.scopes.length) := by
  refine ⟨?_, ?_, ?_⟩
  · intro n ast st t st' h
    exact ((visit_depth n).1 _ _ _ _ h).2 _ rfl
  · intro n statements cx st f st' h
    simp only [TypecheckerVisitor.visit] at h
    split at h
    next errs st2 hbs =>
      obtain ⟨hle, _⟩ := (visit_depth n).2.2.2.1 _ _ _ _ hbs
      simp only [push_scope_length] at hle
      split at h
      · injection h with h1 h2
        exact nomatch h1
      · injection h with h1 h2
        subst h2
        simpa using hle
    next f2 st2 hbs =>
      have hle := (visit_depth n).2.2.2.2.1 _ _ _ _ hbs
      simp only [push_scope_length] at hle
      injection h with h1 h2
      subst h2
      simpa using hle
  · intro n name parameters return_type code_block cx st env1 f st' hadd h
    simp only [TypecheckerVisitor.visit] at h
    simp only [hadd] at h
    have hl1 := add_variable_ok_length _ _ _ _ _ hadd
    split at h
    next f3 st3 hb =>
      injection h with h1 h2
      subst h2
      have hle := ((visit_depth n).1 _ _ _ _ hb).1
      simp only [push_scope_length] at hle
      omega
    next t3 st3 hb =>
      have heq3 := ((visit_depth n).1 _ _ _ _ hb).2 _ rfl
      simp only [push_scope_length] at heq3
      split at h
      · injection h with h1 h2
        subst h2
        omega
      · injection h with h1 h2
        exact nomatch h1

theorem c1_witness :
    (TcState.mk (EnvironmentStack.mk [Scope.empty]) Ty.void
        false).environment.scopes.length =
      TypecheckerVisitor.default_state.environment.scopes.length ∧
    TypecheckerVisitor.default_state.environment.scopes.length + 1 ≤
      (TcState.mk (EnvironmentStack.mk [Scope.empty, Scope.empty]) Ty.void
        false).environment.scopes.length ∧
    TypecheckerVisitor.default_state.environment.scopes.length + 1 ≤
      (TcState.mk (EnvironmentStack.mk
          [Scope.empty, Scope.mk [("f", Ty.callable .u8 [])] []]) Ty.u8
        false).environment.scopes.length :=
  ⟨c1_scope_balance.1 9 (.block [] (SourceContext.mk 0 0))
      TypecheckerVisitor.default_state .void
      (TcState.mk (EnvironmentStack.mk [Scope.empty]) Ty.void false) rfl,
   c1_scope_balance.2.1 8
      [.printNode (.identifier "zz" (SourceContext.mk 0 0))
        (SourceContext.mk 0 0)]
      (SourceContext.mk 0 0) TypecheckerVisitor.default_state
      (.err (.combined [.undefinedVariable "zz" (SourceContext.mk 0 0)]))
      (TcState.mk (EnvironmentStack.mk [Scope.empty, Scope.empty]) Ty.void
        false) rfl,
   c1_scope_balance.2.2 8 "f" [] .u8 (.block [] (SourceContext.mk 0 0))
      (SourceContext.mk 0 0) TypecheckerVisitor.default_state
      (EnvironmentStack.mk [Scope.mk [("f", Ty.callable .u8 [])] []])
      (.err (.noReturn .u8 "f" (SourceContext.mk 0 0)))
      (TcState.mk (EnvironmentStack.mk
          [Scope.empty, Scope.mk [("f", Ty.callable .u8 [])] []]) Ty.u8
        false) rfl rfl⟩

/-- Counterexample to C2 as written: a let in an inner block scope for a name
bound only in an OUTER scope raises AlreadyDefinedVariable, because
has_variable searches every scope of the environment stack, not just the
innermost one, so shadowing is rejected rather than permitted. -/
theorem c2_counterexample :
    (TypecheckerVisitor.visit 9
        (.block [.letNode "x" .u8 (.unsignedint 1 (SourceContext.mk 0 0))
            (SourceContext.mk 0 0),
          .block [.letNode "x" .u8 (.unsignedint 2 (SourceContext.mk 0 0))
            (SourceContext.mk 0 0)] (SourceContext.mk 0 0)]
          (SourceContext.mk 0 0))
        TypecheckerVisitor.default_state).1 =
      .error (.err (.combined
        [.combined [.alreadyDefinedVariable "x" (SourceContext.mk 0 0)]])) :=
  rfl

/-- Claim C2 (corrected): visit_let raises AlreadyDefinedVariable exactly
when has_variable finds the name in ANY scope of the environment stack
(the repo test test_let_for_already_defined_variable_raises confirms that
rejecting shadowing is the intended behaviour). -/
theorem c2_shadowing_raises (n : Nat) (name : String) (var_type : Ty)
    (rhs : Ast) (cx : SourceContext) (st st1 : TcState) (rhs_type : Ty)
    (hrhs : TypecheckerVisitor.visit n rhs st = (.ok rhs_type, st1)) :
    (TypecheckerVisitor.visit (n + 1) (.letNode name var_type rhs cx) st =
      (.error (.err (.alreadyDefinedVariable name cx)), st1)) ↔
    EnvironmentStack.has_variable st1.environment name = true := by
  constructor
  · intro h
    cases hhas : st1.environment.has_variable name with
    | true => rfl
    | false =>
      exfalso
      simp only [TypecheckerVisitor.visit, hrhs, hhas] at h
      simp only [Bool.false_eq_true, if_false] at h
      split at h
      next f2 hadd =>
        injection h with h1 h2
        injection h1 with h1
        exact add_variable_never_already_defined _ _ _ _ _ _ _ hadd h1
      next env2 hadd =>
        split at h
        next e3 hg =>
          injection h with h1 h2
          injection h1 with h1
          injection h1 with h1
          unfold EnvironmentStack.get_variable_type at hg
          split at hg
          · exact Except.noConfusion hg
          · injection hg with hg
            rw [← hg] at h1
            exact nomatch h1
        next t3 hg =>
          split at h
          · injection h with h1 h2
            exact nomatch h1
          · split at h
            · injection h with h1 h2
              injection h1 with h1
              injection h1 with h1
              exact nomatch h1
            · injection h with h1 h2
              exact nomatch h1
  · intro hhas
    simp only [TypecheckerVisitor.visit, hrhs, hhas, if_true]

theorem c2_witness :
    TypecheckerVisitor.visit 2
        (.letNode "x" .u8 (.unsignedint 1 (SourceContext.mk 0 0))
          (SourceContext.mk 0 0))
        (TcState.mk (EnvironmentStack.mk
          [Scope.empty, Scope.mk [("x", Ty.u8)] []]) .void false) =
      (.error (.err (.alreadyDefinedVariable "x" (SourceContext.mk 0 0))),
        TcState.mk (EnvironmentStack.mk
          [Scope.empty, Scope.mk [("x", Ty.u8)] []]) .void false) :=
  (c2_shadowing_raises 1 "x" .u8 (.unsignedint 1 (SourceContext.mk 0 0))
    (SourceContext.mk 0 0)
    (TcState.mk (EnvironmentStack.mk
      [Scope.empty, Scope.mk [("x", Ty.u8)] []]) .void false)
    (TcState.mk (EnvironmentStack.mk
      [Scope.empty, Scope.mk [("x", Ty.u8)] []]) .void false)
    .u8 rfl).mpr rfl

/-- Claim C3 (code bug): an identifier that merely STARTS with a keyword,
such as iffy, makes _is_keyword_next true via startswith, and then
_consume_keyword looks the full identifier run up in KEYWORD_CATEGORIES,
which raises an uncaught KeyError instead of producing a token. -/
theorem c3_keyword_prefix_crashes :
    Scanner.scan "iffy" = .error (.keyError "iffy") ∧
    Scanner.is_keyword_next "iffy".data = true ∧
    is_identifier_leading_character 'i' = true ∧
    List.lookup "iffy" KEYWORD_CATEGORIES = none :=
  ⟨rfl, by decide, by decide, by decide⟩

/-- Counterexample to C4 as written: in 1 + 2 the Addition node's context is
the position of the PLUS token, column 7, not that of the left operand at
column 5, because _parse_expression builds the context only after having
parsed the left term. -/
theorem c4_counterexample :
    Parser.parse
      [Token.mk 1 1 .defK "def", Token.mk 1 5 .identifier "main",
       Token.mk 1 9 .left_paren "(", Token.mk 1 10 .right_paren ")",
       Token.mk 1 12 .arrow "->", Token.mk 1 15 .voidK "void",
       Token.mk 1 19 .colon ":", Token.mk 1 20 .newline "\n",
       Token.mk 2 1 .indent "    ", Token.mk 2 5 .unsignedint "1",
       Token.mk 2 7 .plus "+", Token.mk 2 9 .unsignedint "2",
       Token.mk 2 10 .newline "\n", Token.mk 3 1 .dedent "    ",
       Token.mk 3 1 .eof ""] =
      .ok (.program
        [.function "main" [] .void
          (.block
            [.addition (.unsignedint 1 (SourceContext.mk 2 5))
               (.unsignedint 2 (SourceContext.mk 2 9))
               (SourceContext.mk 2 7)]
            (SourceContext.mk 2 1))
          (SourceContext.mk 1 1)]
        (SourceContext.mk 1 1)) ∧
    SourceContext.mk 2 7 ≠ SourceContext.mk 2 5 :=
  ⟨rfl, by decide⟩

/-- Claim C4 (corrected): every parse method captures its node's context from
the token under the cursor at entry (program, function, block, if, print,
let, assignment, return, atom, function call and unary negation), with the
single exception of Addition, whose context is the PLUS token's position. -/
theorem c4_contexts :
    (∀ (n : Nat) (t : Token) (ts : List Token) (node : Ast)
      (rest : List Token),
      Parser.parse_program n (t :: ts) = .ok (node, rest) →
      node.context = SourceContext.mk t.line t.column) ∧
    (∀ (n : Nat) (t : Token) (ts : List Token) (node : Ast)
      (rest : List Token),
      Parser.parse_function n (t :: ts) = .ok (node, rest) →
      node.context = SourceContext.mk t.line t.column) ∧
    (∀ (n : Nat) (t : Token) (ts : List Token) (node : Ast)
      (rest : List Token),
      Parser.parse_block n (t :: ts) = .ok (node, rest) →
      node.context = SourceContext.mk t.line t.column) ∧
    (∀ (n : Nat) (t : Token) (ts : List Token) (node : Ast)
      (rest : List Token),
      Parser.parse_if n (t :: ts) = .ok (node, rest) →
      node.context = SourceContext.mk t.line t.column) ∧
    (∀ (n : Nat) (t : Token) (ts : List Token) (node : Ast)
      (rest : List Token),
      Parser.parse_print n (t :: ts) = .ok (node, rest) →
      node.context = SourceContext.mk t.line t.column) ∧
    (∀ (n : Nat) (t : Token) (ts : List Token) (node : Ast)
      (rest : List Token),
      Parser.parse_let n (t :: ts) = .ok (node, rest) →
      node.context = SourceContext.mk t.line t.column) ∧
    (∀ (n : Nat) (t : Token) (ts : List Token) (node : Ast)
      (rest : List Token),
      Parser.parse_assignment n (t :: ts) = .ok (node, rest) →
      node.context = SourceContext.mk t.line t.column) ∧
    (∀ (n : Nat) (t : Token) (ts : List Token) (node : Ast)
      (rest : List Token),
      Parser.parse_return n (t :: ts) = .ok (node, rest) →
      node.context = SourceContext.mk t.line t.column) ∧
    (∀ (n : Nat) (t : Token) (ts : List Token) (node : Ast)
      (rest : List Token),
      Parser.parse_atom n (t :: ts) = .ok (node, rest) →
      node.context = SourceContext.mk t.line t.column) ∧
    (∀ (n : Nat) (t : Token) (ts : List Token) (node : Ast)
      (rest : List Token),
      Parser.parse_function_call n (t :: ts) = .ok (node, rest) →
      node.context = SourceContext.mk t.line t.column) ∧
    (∀ (n : Nat) (t : Token) (ts : List Token) (node : Ast)
      (rest : List Token),
      t.category = TokenCategory.minus →
      Parser.parse_factor n (t :: ts) = .ok (node, rest) →
      node.context = SourceContext.mk t.line t.column) ∧
    (∀ (n : Nat) (tokens ts rest : List Token) (t : Token) (lhs rhs : Ast),
      Parser.parse_term n tokens = .ok (lhs, t :: ts) →
      t.category = TokenCategory.plus →
      Parser.parse_expression n ts = .ok (rhs, rest) →
      Parser.parse_expression (n + 1) tokens =
        .ok (.addition lhs rhs (SourceContext.mk t.line t.column), rest)) :=
  ⟨ctx_parse_program, ctx_parse_function, ctx_parse_block, ctx_parse_if,
   ctx_parse_print, ctx_parse_let, ctx_parse_assignment, ctx_parse_return,
   ctx_parse_atom, ctx_parse_function_call,
   fun n t ts node rest hm h => ctx_parse_factor_negation n t ts node rest hm h,
   addition_built_at_plus⟩

theorem c4_witness :
    (Ast.program [] (SourceContext.mk 3 4)).context = SourceContext.mk 3 4 ∧
    Parser.parse_expression 5
        [Token.mk 1 1 .unsignedint "1", Token.mk 1 3 .plus "+",
         Token.mk 1 5 .unsignedint "2", Token.mk 1 6 .eof ""] =
      .ok (.addition (.unsignedint 1 (SourceContext.mk 1 1))
          (.unsignedint 2 (SourceContext.mk 1 5)) (SourceContext.mk 1 3),
        [Token.mk 1 6 .eof ""]) :=
  ⟨c4_contexts.1 5 (Token.mk 3 4 .eof "") [] (Ast.program []
      (SourceContext.mk 3 4)) [Token.mk 3 4 .eof ""] rfl,
   c4_contexts.2.2.2.2.2.2.2.2.2.2.2 4
     [Token.mk 1 1 .unsignedint "1", Token.mk 1 3 .plus "+",
      Token.mk 1 5 .unsignedint "2", Token.mk 1 6 .eof ""]
     [Token.mk 1 5 .unsignedint "2", Token.mk 1 6 .eof ""]
     [Token.mk 1 6 .eof ""] (Token.mk 1 3 .plus "+")
     (.unsignedint 1 (SourceContext.mk 1 1))
     (.unsignedint 2 (SourceContext.mk 1 5)) (by rfl) rfl (by rfl)⟩

/-- Counterexample to C5 as written: a call to a function defined LATER in
the program raises UndefinedVariable, because visit_program processes the
functions in order with no pre-registration pass, so a forward reference is
not visible when the calling body is checked. -/
theorem c5_counterexample :
    (TypecheckerVisitor.visit 20
        (.program
          [.function "a" [] .void
             (.block [.functionCall "b" [] (SourceContext.mk 0 0)]
               (SourceContext.mk 0 0)) (SourceContext.mk 0 0),
           .function "b" [] .void
             (.block [.printNode (.unsignedint 1 (SourceContext.mk 0 0))
                 (SourceContext.mk 0 0)] (SourceContext.mk 0 0))
             (SourceContext.mk 0 0)]
          (SourceContext.mk 0 0))
        TypecheckerVisitor.default_state).1 =
      .error (.err (.combined [.combined
        [.undefinedVariable "b" (SourceContext.mk 0 0)]])) := rfl

/-- Claim C5 (corrected): direct recursion works because visit_function adds
the function's Callable type to the enclosing scope BEFORE visiting the
body (so the name resolves from inside its own body unless a parameter
shadows it), and a closed self-recursive program typechecks; only forward
references fail, as the counterexample shows. -/
theorem c5_recursion_supported :
    (∀ (st : TcState) (name : String) (parameters : List Parameter)
      (return_type : Ty) (cx cx2 : SourceContext) (env1 : EnvironmentStack),
      st.environment.add_variable name
          (Function.type parameters return_type) cx = .ok env1 →
      name ∉ parameters.map Parameter.name →
      (env1.push_scope
          (parameters.foldl (fun sc p => sc.add_variable p.name p.type_id)
            Scope.empty)).get_variable_type name cx2 =
        .ok (Function.type parameters return_type)) ∧
    (TypecheckerVisitor.visit 20
        (.program
          [.function "f" [] .u8
             (.block [.returnNode (.functionCall "f" [] (SourceContext.mk 0 0))
                 (SourceContext.mk 0 0)] (SourceContext.mk 0 0))
             (SourceContext.mk 0 0)]
          (SourceContext.mk 0 0))
        TypecheckerVisitor.default_state).1 = .ok .void :=
  ⟨fun st name ps rt cx cx2 env1 hadd hname =>
    function_registered_before_body st name ps rt cx cx2 env1 hadd hname,
   rfl⟩

theorem c5_witness :
    (EnvironmentStack.push_scope
        (EnvironmentStack.mk [Scope.mk [("f", Ty.callable .u8 [])] []])
        Scope.empty).get_variable_type "f" (SourceContext.mk 0 0) =
      .ok (Function.type [] Ty.u8) :=
  c5_recursion_supported.1 TypecheckerVisitor.default_state "f" [] .u8
    (SourceContext.mk 0 0) (SourceContext.mk 0 0)
    (EnvironmentStack.mk [Scope.mk [("f", Ty.callable .u8 [])] []])
    rfl (by decide)

/-- Claim C6 (confirmed): when every statement of a block either succeeds or
raises a catchable TypecheckError, visit_block visits ALL statements (the
trace is as long as the statement list), collects the errors in source
order, and raises Combined carrying exactly one error per failing
statement. -/
theorem c6_block_collects_all_errors (n : Nat) (statements : List Ast)
    (cx : SourceContext) (st st1 : TcState)
    (hst1 : st1 =
      { st with environment := st.environment.push_scope Scope.empty })
    (hcatch : ∀ r ∈ statement_trace n statements st1, is_catchable r = true)
    (hfail : (errors_of (statement_trace n statements st1)).isEmpty = false) :
    ∃ st2, TypecheckerVisitor.visit (n + 1) (.block statements cx) st =
        (.error (.err (.combined
          (errors_of (statement_trace n statements st1)))), st2) ∧
      (statement_trace n statements st1).length = statements.length ∧
      (errors_of (statement_trace n statements st1)).length =
        (statement_trace n statements st1).countP is_error := by
  subst hst1
  obtain ⟨st', hbs, hlen⟩ := block_statements_trace statements n _ hcatch
  refine ⟨st', ?_, hlen, errors_of_length _ hcatch⟩
  simp only [TypecheckerVisitor.visit, hbs, hfail]
  simp [hfail]

/-- Claim C7 (confirmed): for a callee of N parameters, a call with N-1
arguments raises NotEnoughArguments(name, N-1, N, ctx), a call with N+1
raises TooManyArguments(name, N+1, N, ctx), and a call with exactly N
arguments whose visited types equal the parameter types returns the
callable's declared return type. -/
theorem c7_arity_and_types (n : Nat) (name : String) (args : List Ast)
    (ps : List Ty) (rt : Ty) (cx : SourceContext) (st : TcState)
    (hlook : st.environment.get_variable_type name cx =
      .ok (.callable rt ps)) :
    (args.length + 1 = ps.length →
      TypecheckerVisitor.visit (n + 1) (.functionCall name args cx) st =
        (.error (.err (.notEnoughArguments name args.length ps.length cx)),
          st)) ∧
    (args.length = ps.length + 1 →
      TypecheckerVisitor.visit (n + 1) (.functionCall name args cx) st =
        (.error (.err (.tooManyArguments name args.length ps.length cx)),
          st)) ∧
    (statement_trace n args st = ps.map (fun p => Except.ok p) →
      args.length = ps.length →
      ∃ st', TypecheckerVisitor.visit (n + 1) (.functionCall name args cx) st =
        (.ok rt, st')) := by
  refine ⟨?_, ?_, ?_⟩
  · intro hlen
    simp only [TypecheckerVisitor.visit, hlook]
    simp [show ¬ args.length > ps.length by omega,
      show args.length < ps.length by omega]
  · intro hlen
    simp only [TypecheckerVisitor.visit, hlook]
    simp [show args.length > ps.length by omega]
  · intro htrace hlen
    obtain ⟨st', hca⟩ := call_arguments_all_ok args n ps cx st htrace
    refine ⟨st', ?_⟩
    simp only [TypecheckerVisitor.visit, hlook, hca]
    simp [show ¬ args.length > ps.length by omega,
      show ¬ args.length < ps.length by omega, hca]

theorem c6_witness :
    ∃ st2, TypecheckerVisitor.visit 10
        (.block
          [.printNode (.identifier "zz" (SourceContext.mk 0 0))
             (SourceContext.mk 0 0),
           .printNode (.unsignedint 1 (SourceContext.mk 0 0))
             (SourceContext.mk 0 0),
           .printNode (.identifier "ww" (SourceContext.mk 0 0))
             (SourceContext.mk 0 0)]
          (SourceContext.mk 0 0))
        TypecheckerVisitor.default_state =
        (.error (.err (.combined (errors_of (statement_trace 9
          [.printNode (.identifier "zz" (SourceContext.mk 0 0))
             (SourceContext.mk 0 0),
           .printNode (.unsignedint 1 (SourceContext.mk 0 0))
             (SourceContext.mk 0 0),
           .printNode (.identifier "ww" (SourceContext.mk 0 0))
             (SourceContext.mk 0 0)]
          (TcState.mk (EnvironmentStack.mk [Scope.empty, Scope.empty])
            .void false))))), st2) ∧
      (statement_trace 9
          [.printNode (.identifier "zz" (SourceContext.mk 0 0))
             (SourceContext.mk 0 0),
           .printNode (.unsignedint 1 (SourceContext.mk 0 0))
             (SourceContext.mk 0 0),
           .printNode (.identifier "ww" (SourceContext.mk 0 0))
             (SourceContext.mk 0 0)]
          (TcState.mk (EnvironmentStack.mk [Scope.empty, Scope.empty])
            .void false)).length = 3 ∧
      (errors_of (statement_trace 9
          [.printNode (.identifier "zz" (SourceContext.mk 0 0))
             (SourceContext.mk 0 0),
           .printNode (.unsignedint 1 (SourceContext.mk 0 0))
             (SourceContext.mk 0 0),
           .printNode (.identifier "ww" (SourceContext.mk 0 0))
             (SourceContext.mk 0 0)]
          (TcState.mk (EnvironmentStack.mk [Scope.empty, Scope.empty])
            .void false))).length =
        (statement_trace 9
          [.printNode (.identifier "zz" (SourceContext.mk 0 0))
             (SourceContext.mk 0 0),
           .printNode (.unsignedint 1 (SourceContext.mk 0 0))
             (SourceContext.mk 0 0),
           .printNode (.identifier "ww" (SourceContext.mk 0 0))
             (SourceContext.mk 0 0)]
          (TcState.mk (EnvironmentStack.mk [Scope.empty, Scope.empty])
            .void false)).countP is_error :=
  c6_block_collects_all_errors 9
    [.printNode (.identifier "zz" (SourceContext.mk 0 0))
       (SourceContext.mk 0 0),
     .printNode (.unsignedint 1 (SourceContext.mk 0 0))
       (SourceContext.mk 0 0),
     .printNode (.identifier "ww" (SourceContext.mk 0 0))
       (SourceContext.mk 0 0)]
    (SourceContext.mk 0 0) TypecheckerVisitor.default_state
    (TcState.mk (EnvironmentStack.mk [Scope.empty, Scope.empty]) .void false)
    rfl (by decide) (by decide)

theorem c7_witness :
    (TypecheckerVisitor.visit 3
        (.functionCall "f" [] (SourceContext.mk 0 0))
        (TcState.mk (EnvironmentStack.mk
          [Scope.mk [("f", Ty.callable .u8 [.u8])] []]) .void false) =
      (.error (.err (.notEnoughArguments "f" 0 1 (SourceContext.mk 0 0))),
        TcState.mk (EnvironmentStack.mk
          [Scope.mk [("f", Ty.callable .u8 [.u8])] []]) .void false)) ∧
    (TypecheckerVisitor.visit 3
        (.functionCall "f"
          [.unsignedint 1 (SourceContext.mk 0 0),
           .unsignedint 2 (SourceContext.mk 0 0)] (SourceContext.mk 0 0))
        (TcState.mk (EnvironmentStack.mk
          [Scope.mk [("f", Ty.callable .u8 [.u8])] []]) .void false) =
      (.error (.err (.tooManyArguments "f" 2 1 (SourceContext.mk 0 0))),
        TcState.mk (EnvironmentStack.mk
          [Scope.mk [("f", Ty.callable .u8 [.u8])] []]) .void false)) ∧
    (∃ st', TypecheckerVisitor.visit 3
        (.functionCall "f" [.unsignedint 1 (SourceContext.mk 0 0)]
          (SourceContext.mk 0 0))
        (TcState.mk (EnvironmentStack.mk
          [Scope.mk [("f", Ty.callable .u8 [.u8])] []]) .void false) =
      (.ok .u8, st')) :=
  ⟨(c7_arity_and_types 2 "f" [] [.u8] .u8 (SourceContext.mk 0 0)
      (TcState.mk (EnvironmentStack.mk
        [Scope.mk [("f", Ty.callable .u8 [.u8])] []]) .void false)
      rfl).1 rfl,
   (c7_arity_and_types 2 "f"
      [.unsignedint 1 (SourceContext.mk 0 0),
       .unsignedint 2 (SourceContext.mk 0 0)] [.u8] .u8
      (SourceContext.mk 0 0)
      (TcState.mk (EnvironmentStack.mk
        [Scope.mk [("f", Ty.callable .u8 [.u8])] []]) .void false)
      rfl).2.1 rfl,
   (c7_arity_and_types 2 "f" [.unsignedint 1 (SourceContext.mk 0 0)]
      [.u8] .u8 (SourceContext.mk 0 0)
      (TcState.mk (EnvironmentStack.mk
        [Scope.mk [("f", Ty.callable .u8 [.u8])] []]) .void false)
      rfl).2.2 rfl rfl⟩

/-- Counterexample to C8 as written: leading spaces on the very first line
are consumed by the plain space branch of _scan_next_token, never by
_consume_possible_indentations, so scanning a first line indented by two
spaces succeeds even though 2 is not a multiple of 4. -/
theorem c8_counterexample :
    Scanner.scan "  x" =
      .ok [Token.mk 1 3 .identifier "x", Token.mk 1 4 .eof ""] ∧
    2 % 4 ≠ 0 :=
  ⟨rfl, by decide⟩

/-- Claim C8 (corrected): the INDENT-minus-DEDENT count equals the current
indentation level at every scanner step and across the whole loop from the
initial state; after a NEWLINE, a non-blank line whose leading-space count
is not a multiple of 4 raises UnevenIndentation; but a space seen anywhere
else is skipped without any indentation check, which is why the first line
escapes the check (see the counterexample). -/
theorem c8_indent_invariant :
    (∀ (st st' : ScanState), scan_invariant st →
      Scanner.scan_step st = .ok st' → scan_invariant st') ∧
    (∀ (n : Nat) (st st' : ScanState), scan_invariant st →
      Scanner.scan_loop n st = .ok st' → scan_invariant st') ∧
    (∀ source : List Char, scan_invariant (ScanState.mk source 1 1 0 [])) ∧
    (∀ (st : ScanState) (rest : List Char),
      st.remaining = '\n' :: rest →
      (rest.dropWhile (fun c => c = ' ')).head? ≠ some '\n' →
      (rest.takeWhile (fun c => c = ' ')).length % 4 ≠ 0 →
      Scanner.scan_step st =
        .error (.unevenIndent (st.line + 1) 1
          ((rest.takeWhile (fun c => c = ' ')).length))) ∧
    (∀ (st : ScanState) (rest : List Char),
      st.remaining = ' ' :: rest →
      Scanner.scan_step st = .ok (Scanner.advance st)) :=
  ⟨fun st st' h1 h2 => scan_step_invariant st st' h1 h2,
   fun n st st' h1 h2 => scan_loop_invariant n st st' h1 h2,
   fun _ => rfl,
   fun st rest h1 h2 h3 => scan_step_uneven_raises st rest h1 h2 h3,
   fun st rest h => scan_step_space_skips st rest h⟩

theorem c8_witness :
    scan_invariant (ScanState.mk [] 1 2 0 []) ∧
    scan_invariant (ScanState.mk ['x'] 1 1 0 []) ∧
    Scanner.scan_step (ScanState.mk ('\n' :: ' ' :: ' ' :: ['x']) 1 1 0 []) =
      .error (.unevenIndent 2 1 2) ∧
    Scanner.scan_step (ScanState.mk (' ' :: ['x']) 1 1 0 []) =
      .ok (Scanner.advance (ScanState.mk (' ' :: ['x']) 1 1 0 [])) ∧
    scan_invariant (ScanState.mk [] 1 2 0 [] : ScanState) :=
  ⟨c8_indent_invariant.1 (ScanState.mk [' '] 1 1 0 [])
      (ScanState.mk [] 1 2 0 []) rfl rfl,
   c8_indent_invariant.2.2.1 ['x'],
   c8_indent_invariant.2.2.2.1 (ScanState.mk ('\n' :: ' ' :: ' ' :: ['x']) 1 1 0 [])
     (' ' :: ' ' :: ['x']) rfl (by decide) (by decide),
   c8_indent_invariant.2.2.2.2 (ScanState.mk (' ' :: ['x']) 1 1 0 [])
     ['x'] rfl,
   c8_indent_invariant.2.1 1 (ScanState.mk [' '] 1 1 0 [])
     (ScanState.mk [] 1 2 0 []) rfl rfl⟩

/-- Claim C9 (confirmed): scanning a final newline with indentation level L
emits the NEWLINE followed by exactly L DEDENT tokens and resets the level
to 0, while end of input without a newline emits nothing further, leaving
the indentation unclosed, as the closed scan of an unterminated indented
source shows. -/
theorem c9_final_newline_dedents :
    (∀ (n line column indent_level : Nat) (produced : List Token),
      Scanner.scan_loop (n + 2)
          (ScanState.mk ['\n'] line column indent_level produced) =
        .ok (ScanState.mk [] (line + 1) 1 0
          (produced ++ [Token.mk line column .newline "\n"] ++
            List.replicate indent_level (Token.mk (line + 1) 1 .dedent "    ")))) ∧
    (∀ (n : Nat) (st : ScanState), st.remaining = [] →
      Scanner.scan_loop n st = .ok st) ∧
    Scanner.scan "if true:\n    1" =
      .ok [Token.mk 1 1 .ifK "if", Token.mk 1 4 .trueK "true",
           Token.mk 1 8 .colon ":", Token.mk 1 9 .newline "\n",
           Token.mk 2 1 .indent "    ", Token.mk 2 5 .unsignedint "1",
           Token.mk 2 6 .eof ""] :=
  ⟨fun n line column indent_level produced =>
    scan_loop_final_newline n line column indent_level produced,
   fun n st h => scan_loop_end_of_input n st h,
   rfl⟩

theorem c9_witness :
    Scanner.scan_loop 4 (ScanState.mk ['\n'] 2 5 1
        [Token.mk 2 1 .indent "    ", Token.mk 2 5 .unsignedint "1"]) =
      .ok (ScanState.mk [] 3 1 0
        [Token.mk 2 1 .indent "    ", Token.mk 2 5 .unsignedint "1",
         Token.mk 2 5 .newline "\n", Token.mk 3 1 .dedent "    "]) ∧
    Scanner.scan_loop 7 (ScanState.mk [] 3 1 0 []) =
      .ok (ScanState.mk [] 3 1 0 []) :=
  ⟨(c9_final_newline_dedents.1 2 2 5 1
      [Token.mk 2 1 .indent "    ", Token.mk 2 5 .unsignedint "1"]),
   c9_final_newline_dedents.2.1 7 (ScanState.mk [] 3 1 0 []) rfl⟩

/-- Claim C10 (confirmed): visit_function_call compares argument count with
parameter count BEFORE visiting any argument, so a wrong-arity call returns
only the arity error with the state untouched no matter what the arguments
contain; with the correct count, arguments are visited left to right and
the first mismatch alone determines the TypeMismatch raised. -/
theorem c10_arity_checked_first (n : Nat) (name : String)
    (ps : List Ty) (rt : Ty) (cx : SourceContext) (st : TcState)
    (hlook : st.environment.get_variable_type name cx =
      .ok (.callable rt ps)) :
    (∀ args : List Ast, args.length > ps.length →
      TypecheckerVisitor.visit (n + 1) (.functionCall name args cx) st =
        (.error (.err (.tooManyArguments name args.length ps.length cx)),
          st)) ∧
    (∀ args : List Ast, args.length < ps.length →
      TypecheckerVisitor.visit (n + 1) (.functionCall name args cx) st =
        (.error (.err (.notEnoughArguments name args.length ps.length cx)),
          st)) ∧
    (∀ (pre : List Ast) (a : Ast) (post : List Ast) (psPre : List Ty)
       (p : Ty) (psPost : List Ty) (t : Ty),
      ps = psPre ++ p :: psPost →
      psPre.length = pre.length →
      (pre ++ a :: post).length = ps.length →
      (statement_trace n (pre ++ a :: post) st).take (pre.length + 1) =
        psPre.map (fun q => Except.ok q) ++ [Except.ok t] →
      t ≠ p →
      ∃ st', TypecheckerVisitor.visit (n + 1)
          (.functionCall name (pre ++ a :: post) cx) st =
        (.error (.err (.typeMismatch p t cx)), st')) := by
  refine ⟨?_, ?_, ?_⟩
  · intro args hgt
    simp only [TypecheckerVisitor.visit, hlook]
    simp [hgt]
  · intro args hlt
    simp only [TypecheckerVisitor.visit, hlook]
    simp [show ¬ args.length > ps.length by omega, hlt]
  · intro pre a post psPre p psPost t hps hlenpre hlentot htake hne
    subst hps
    obtain ⟨st', hca⟩ := call_arguments_first_mismatch pre n psPre a post p
      psPost cx st t hlenpre htake hne
    refine ⟨st', ?_⟩
    simp only [TypecheckerVisitor.visit, hlook, hca]
    split
    · next h =>
        simp only [List.length_append, List.length_cons] at h hlentot
        omega
    · split
      · next h =>
          simp only [List.length_append, List.length_cons] at h hlentot
          omega
      · rfl

theorem c10_witness :
    (TypecheckerVisitor.visit 4
        (.functionCall "f"
          [.unsignedint 1 (SourceContext.mk 0 0),
           .unsignedint 2 (SourceContext.mk 0 0),
           .unsignedint 3 (SourceContext.mk 0 0)] (SourceContext.mk 0 0))
        (TcState.mk (EnvironmentStack.mk
          [Scope.mk [("f", Ty.callable .u8 [.u8, .boolT])] []]) .void false) =
      (.error (.err (.tooManyArguments "f" 3 2 (SourceContext.mk 0 0))),
        TcState.mk (EnvironmentStack.mk
          [Scope.mk [("f", Ty.callable .u8 [.u8, .boolT])] []]) .void false)) ∧
    (TypecheckerVisitor.visit 4
        (.functionCall "f" [.boolLit true (SourceContext.mk 0 0)]
          (SourceContext.mk 0 0))
        (TcState.mk (EnvironmentStack.mk
          [Scope.mk [("f", Ty.callable .u8 [.u8, .boolT])] []]) .void false) =
      (.error (.err (.notEnoughArguments "f" 1 2 (SourceContext.mk 0 0))),
        TcState.mk (EnvironmentStack.mk
          [Scope.mk [("f", Ty.callable .u8 [.u8, .boolT])] []]) .void false)) ∧
    (∃ st', TypecheckerVisitor.visit 4
        (.functionCall "f"
          [.unsignedint 1 (SourceContext.mk 0 0),
           .unsignedint 2 (SourceContext.mk 0 0)] (SourceContext.mk 0 0))
        (TcState.mk (EnvironmentStack.mk
          [Scope.mk [("f", Ty.callable .u8 [.u8, .boolT])] []]) .void false) =
      (.error (.err (.typeMismatch .boolT .u8 (SourceContext.mk 0 0))),
        st')) :=
  ⟨(c10_arity_checked_first 3 "f" [.u8, .boolT] .u8 (SourceContext.mk 0 0)
      (TcState.mk (EnvironmentStack.mk
        [Scope.mk [("f", Ty.callable .u8 [.u8, .boolT])] []]) .void false)
      rfl).1
    [.unsignedint 1 (SourceContext.mk 0 0),
     .unsignedint 2 (SourceContext.mk 0 0),
     .unsignedint 3 (SourceContext.mk 0 0)] (by decide),
   (c10_arity_checked_first 3 "f" [.u8, .boolT] .u8 (SourceContext.mk 0 0)
      (TcState.mk (EnvironmentStack.mk
        [Scope.mk [("f", Ty.callable .u8 [.u8, .boolT])] []]) .void false)
      rfl).2.1
    [.boolLit true (SourceContext.mk 0 0)] (by decide),
   (c10_arity_checked_first 3 "f" [.u8, .boolT] .u8 (SourceContext.mk 0 0)
      (TcState.mk (EnvironmentStack.mk
        [Scope.mk [("f", Ty.callable .u8 [.u8, .boolT])] []]) .void false)
      rfl).2.2
    [.unsignedint 1 (SourceContext.mk 0 0)]
    (.unsignedint 2 (SourceContext.mk 0 0)) [] [.u8] .boolT [] .u8
    rfl rfl rfl rfl (by decide)⟩
